import Mathlib

/-!
Verification of the GitHub Hide Deployments content script
(`content.js`): a shallow embedding of its visibility-and-expansion
reconciliation engine, together with theorems about the hiding rules,
the bounded pagination expansion, the single-shot environments
expansion, and the navigation / settings-change / mutation handlers.

The DOM is modelled at the granularity the script observes it:
* a timeline entry is a `Node` carrying the structural attributes the
  script queries (the `data-url` deployed-event marker, the titles of
  contained status `Label` elements, the text of the primary
  environment link) plus the marker classes / dataset flags the script
  writes;  element reference identity is modelled by `Node.id`;
* the collapsible environments section, the `merge-status-list`
  elements and the `ajax-pagination-btn` buttons are separate element
  lists; a synthetic `click()` on a button is modelled by incrementing
  its `clicks` counter (the host page's reaction to a click arrives,
  if at all, as a later mutation and is outside the script).
-/

namespace HideDeployments

/-- Marker classes and dataset flags the script writes on a timeline
entry: `gh-hide-successful-deployment`, `gh-hide-old-deployment`,
`gh-hide-destroyed-deployment`, `gh-hide-failed-deployment` and the
`data-*` flags set alongside them. -/
structure Marks where
  clsSuccessful : Bool
  clsOld : Bool
  clsDestroyed : Bool
  clsFailed : Bool
  dsOld : Bool
  dsDestroyed : Bool
  dsFailed : Bool
deriving DecidableEq, Repr

/-- Structural attributes of a timeline entry, as queried by the
script: whether its `data-url` attribute contains
`/partials/deployed_event/`; the `title` attributes of the status
`.Label` elements sitting inside a `.TimelineItem` whose closest
`.js-socket-channel, .js-timeline-item` container is this entry; and
the raw text of the first
`.TimelineItem-body a.Link--primary.text-bold` link, when present. -/
structure Entry where
  deployedEventUrl : Bool
  labelTitles : List String
  envLink : Option String
deriving DecidableEq, Repr

/-- One timeline element: reference identity (`id`), its structural
attributes, and the markers currently written on it. -/
structure Node where
  id : Nat
  attrs : Entry
  marks : Marks
deriving DecidableEq, Repr

/-- Title string selecting destroyed deployments. -/
def destroyedTitle : String := "Deployment Status Label: Destroyed"

/-- Title string selecting failed deployments. -/
def failedTitle : String := "Deployment Status Label: Failure"

/-- A node matches the destroyed-deployment selector
`.TimelineItem .Label[title="Deployment Status Label: Destroyed"]`. -/
def classifiedDestroyed (n : Node) : Bool :=
  n.attrs.labelTitles.contains destroyedTitle

/-- A node matches the failed-deployment selector
`.TimelineItem .Label[title="Deployment Status Label: Failure"]`. -/
def classifiedFailed (n : Node) : Bool :=
  n.attrs.labelTitles.contains failedTitle

/-- A node matches the successful-deployment selector
`[data-url*="/partials/deployed_event/"]`. -/
def classifiedSuccessful (n : Node) : Bool :=
  n.attrs.deployedEventUrl

/-- JavaScript `String.prototype.trim`: strip whitespace from both
ends (written over the character list so that it evaluates by kernel
reduction). -/
def jsTrim (s : String) : String :=
  ⟨((s.data.dropWhile Char.isWhitespace).reverse.dropWhile Char.isWhitespace).reverse⟩

/-- JavaScript `String.prototype.toLowerCase` (on the ASCII texts the
script matches). -/
def jsToLower (s : String) : String :=
  ⟨s.data.map Char.toLower⟩

/-- `pat` occurs at the head of the character list. -/
def leadsWith : List Char → List Char → Bool
  | [], _ => true
  | _ :: _, [] => false
  | p :: ps, c :: cs => p == c && leadsWith ps cs

/-- `pat` occurs somewhere in the character list. -/
def containsSeq (pat : List Char) : List Char → Bool
  | [] => pat.isEmpty
  | c :: cs => leadsWith pat (c :: cs) || containsSeq pat cs

/-- JavaScript `String.prototype.includes`. -/
def jsIncludes (s pat : String) : Bool :=
  containsSeq pat.data s.data

/-- Environment key of an entry: the trimmed text of its environment
link, or the sentinel `"unknown"` when the link is absent
(`envLink ? envLink.textContent.trim() : 'unknown'`). -/
def envKey (e : Entry) : String :=
  match e.envLink with
  | some t => jsTrim t
  | none => "unknown"

/-- Node-level effect of `hideDestroyedDeployments` on a matching
container: set `dataset.destroyedDeployment` and add the class. -/
def markNodeDestroyed (n : Node) : Node :=
  if classifiedDestroyed n then
    { n with marks := { n.marks with dsDestroyed := true, clsDestroyed := true } }
  else n

/-- Node-level effect of `showDestroyedDeployments`: remove the class
(the dataset flag is not cleared by the script). -/
def clearNodeDestroyed (n : Node) : Node :=
  { n with marks := { n.marks with clsDestroyed := false } }

/-- Node-level effect of `hideFailedDeployments` on a matching
container. -/
def markNodeFailed (n : Node) : Node :=
  if classifiedFailed n then
    { n with marks := { n.marks with dsFailed := true, clsFailed := true } }
  else n

/-- Node-level effect of `showFailedDeployments`. -/
def clearNodeFailed (n : Node) : Node :=
  { n with marks := { n.marks with clsFailed := false } }

/-- Node-level effect of `hideSuccessfulDeployments` on a matching
container. -/
def markNodeSuccessful (n : Node) : Node :=
  if classifiedSuccessful n then
    { n with marks := { n.marks with clsSuccessful := true } }
  else n

/-- Node-level effect of `showSuccessfulDeployments`. -/
def clearNodeSuccessful (n : Node) : Node :=
  { n with marks := { n.marks with clsSuccessful := false } }

/-- Node-level effect of `showOldDeployments`. -/
def clearNodeOld (n : Node) : Node :=
  { n with marks := { n.marks with clsOld := false } }

/-- Node-level effect of marking an old deployment: set
`dataset.oldDeployment` and add `gh-hide-old-deployment`. -/
def markNodeOld (n : Node) : Node :=
  { n with marks := { n.marks with dsOld := true, clsOld := true } }

/-- `hideDestroyedDeployments()`: every container holding a destroyed
status label is flagged and given the hide class. -/
def hideDestroyedDeployments (doc : List Node) : List Node :=
  doc.map markNodeDestroyed

/-- `showDestroyedDeployments()`: the hide class is removed from every
element carrying it. -/
def showDestroyedDeployments (doc : List Node) : List Node :=
  doc.map clearNodeDestroyed

/-- `hideFailedDeployments()`. -/
def hideFailedDeployments (doc : List Node) : List Node :=
  doc.map markNodeFailed

/-- `showFailedDeployments()`. -/
def showFailedDeployments (doc : List Node) : List Node :=
  doc.map clearNodeFailed

/-- `hideSuccessfulDeployments()`: every deployed-event container gets
the hide class. -/
def hideSuccessfulDeployments (doc : List Node) : List Node :=
  doc.map markNodeSuccessful

/-- `showSuccessfulDeployments()`. -/
def showSuccessfulDeployments (doc : List Node) : List Node :=
  doc.map clearNodeSuccessful

/-- `showOldDeployments()`. -/
def showOldDeployments (doc : List Node) : List Node :=
  doc.map clearNodeOld

/-! ### Grouping by environment (`hideOldSuccessfulDeployments`)

The script groups the deployed-event containers into a JavaScript
`Map` keyed by environment name (`deploymentsByEnv`); a `Map`
preserves key insertion order and appends each new element to the end
of its key's array.  We model the map as an association list built by
`insertGroup`, then collect the elements the script marks (all but the
last of every group with at least two elements) and apply the marks by
element identity. -/

/-- Append `x` to the group of key `k`, creating the group at the end
when the key is new (JavaScript `Map.set` / `push` semantics). -/
def insertGroup {α : Type} (m : List (String × List α)) (k : String) (x : α) :
    List (String × List α) :=
  match m with
  | [] => [(k, [x])]
  | (k₀, xs) :: rest =>
      if k₀ = k then (k₀, xs ++ [x]) :: rest
      else (k₀, xs) :: insertGroup rest k x

/-- First-match lookup in the association list (`Map.get`). -/
def groupLookup {α : Type} (m : List (String × List α)) (k : String) : List α :=
  match m with
  | [] => []
  | (k₀, xs) :: rest => if k₀ = k then xs else groupLookup rest k

/-- The deployed-event containers of the document, in document order
(`querySelectorAll('[data-url*="/partials/deployed_event/"]')`). -/
def successfulEntries (doc : List Node) : List Node :=
  doc.filter classifiedSuccessful

/-- `deploymentsByEnv`: the deployed-event containers grouped by
environment key, in key insertion order. -/
def deploymentsByEnv (doc : List Node) : List (String × List Node) :=
  (successfulEntries doc).foldl (fun m n => insertGroup m (envKey n.attrs) n) []

/-- The elements marked by the per-group loop of
`hideOldSuccessfulDeployments`: for each group with at least two
deployments, all but the last one. -/
def collectOldGroups (grps : List (String × List Node)) : List Node :=
  grps.foldl (fun acc g => if g.2.length ≤ 1 then acc else acc ++ g.2.dropLast) []

/-- The nodes `hideOldSuccessfulDeployments` marks on this document. -/
def oldNodes (doc : List Node) : List Node :=
  collectOldGroups (deploymentsByEnv doc)

/-- Identities of the nodes marked old. -/
def oldIds (doc : List Node) : List Nat :=
  (oldNodes doc).map (fun n => n.id)

/-- Apply the old-deployment mark to the elements collected by the
grouping pass (marking by element identity models the script mutating
the very element objects stored in the map). -/
def applyOldMark (ids : List Nat) (n : Node) : Node :=
  if ids.contains n.id then markNodeOld n else n

/-- `hideOldSuccessfulDeployments()`: group the deployed-event
containers by environment and, per environment, hide all but the last
(most recent) deployment; an empty query is an early return. -/
def hideOldSuccessfulDeployments (doc : List Node) : List Node :=
  if (successfulEntries doc).length = 0 then doc
  else doc.map (applyOldMark (oldIds doc))

/-! ### Settings, page state, expansion driver -/

/-- The settings record of the content script (`let settings = ...`).
`expansionLimit` is a JavaScript number, modelled as an integer. -/
structure Settings where
  enabled : Bool
  hideSuccessfulDeployments : Bool
  hideOldSuccessfulDeployments : Bool
  hideDestroyedDeployments : Bool
  hideFailedDeployments : Bool
  autoExpandEnvironments : Bool
  environmentsFullHeight : Bool
  autoExpandLoadMore : Bool
  expansionLimit : Int
deriving DecidableEq, Repr

/-- The built-in defaults of the content script. -/
def defaultSettings : Settings :=
  ⟨true, true, true, true, false, true, true, true, 2⟩

/-- A partial settings record, as read from `chrome.storage.sync` or
received in a `settingsChanged` message. -/
structure PartialSettings where
  enabled : Option Bool
  hideSuccessfulDeployments : Option Bool
  hideOldSuccessfulDeployments : Option Bool
  hideDestroyedDeployments : Option Bool
  hideFailedDeployments : Option Bool
  autoExpandEnvironments : Option Bool
  environmentsFullHeight : Option Bool
  autoExpandLoadMore : Option Bool
  expansionLimit : Option Int
deriving DecidableEq, Repr

/-- The empty partial record (a message carrying no known key). -/
def emptyPartial : PartialSettings :=
  ⟨none, none, none, none, none, none, none, none, none⟩

/-- Spread-merge `{ ...settings, ...stored }`: every key present in
the partial record overrides the base record, with no validation or
clamping. -/
def mergeSettings (s : Settings) (p : PartialSettings) : Settings where
  enabled := p.enabled.getD s.enabled
  hideSuccessfulDeployments := p.hideSuccessfulDeployments.getD s.hideSuccessfulDeployments
  hideOldSuccessfulDeployments := p.hideOldSuccessfulDeployments.getD s.hideOldSuccessfulDeployments
  hideDestroyedDeployments := p.hideDestroyedDeployments.getD s.hideDestroyedDeployments
  hideFailedDeployments := p.hideFailedDeployments.getD s.hideFailedDeployments
  autoExpandEnvironments := p.autoExpandEnvironments.getD s.autoExpandEnvironments
  environmentsFullHeight := p.environmentsFullHeight.getD s.environmentsFullHeight
  autoExpandLoadMore := p.autoExpandLoadMore.getD s.autoExpandLoadMore
  expansionLimit := p.expansionLimit.getD s.expansionLimit

/-- `loadSettings()`: the stored overrides are spread over the
defaults; no clamping or validation is applied in the content script. -/
def loadSettings (stored : PartialSettings) : Settings :=
  mergeSettings defaultSettings stored

/-- The popup's `expansionLimit` change listener
(`Math.max(1, Math.min(99, parseInt(e.target.value) || 2))`):
`parsed` is the result of `parseInt` (`none` for `NaN`); a falsy
result (`NaN` or `0`) falls back to `2`, then the value is clamped to
`[1, 99]`. -/
def popupClampExpansionLimit (parsed : Option Int) : Int :=
  max 1 (min 99 (match parsed with
    | none => 2
    | some v => if v = 0 then 2 else v))

/-- The toggle button of one `.js-details-container.branch-action-item`
section (`button.js-details-target`): its `aria-expanded` state, the
text of its `.statuses-toggle-closed` span when that span exists, and
the number of synthetic clicks delivered to it. -/
structure EnvButton where
  ariaExpanded : Bool
  closedSpanText : Option String
  clicks : Nat
deriving DecidableEq, Repr

/-- One collapsible environments section; `button` is `none` when the
container holds no details-target button. -/
structure EnvContainer where
  button : Option EnvButton
deriving DecidableEq, Repr

/-- One `.merge-status-list` element; only its `max-height` style is
touched by the script. -/
structure StatusList where
  maxHeight : String
deriving DecidableEq, Repr

/-- One `button.ajax-pagination-btn`. -/
structure LoadMoreButton where
  textContent : String
  clicks : Nat
deriving DecidableEq, Repr

/-- The page as the script sees it. -/
structure PageState where
  doc : List Node
  envContainers : List EnvContainer
  statusLists : List StatusList
  loadMoreButtons : List LoadMoreButton
deriving DecidableEq, Repr

/-- The whole state of the content script: the cached settings
snapshot, the per-page-lifetime counters, and the page. -/
structure ContentState where
  settings : Settings
  expansionCount : Nat
  hasAutoExpandedEnvironments : Bool
  page : PageState
deriving DecidableEq, Repr

/-- Replace the timeline part of the page. -/
def docUpdate (st : ContentState) (f : List Node → List Node) : ContentState :=
  { st with page := { st.page with doc := f st.page.doc } }

/-- Processing of one environments container inside
`expandEnvironments`: the selector
`button.js-details-target[aria-expanded="false"]` yields the button
only while collapsed; the click fires only when the closed span exists
and its text contains `Show environments`.  Returns the updated
container and whether a click fired. -/
def processEnvContainer (c : EnvContainer) : EnvContainer × Bool :=
  match c.button with
  | some b =>
      if b.ariaExpanded = false then
        match b.closedSpanText with
        | some t =>
            if jsIncludes t "Show environments" then
              (⟨some { b with clicks := b.clicks + 1 }⟩, true)
            else (c, false)
        | none => (c, false)
      else (c, false)
  | none => (c, false)

/-- `expandEnvironments()`: latched on `hasAutoExpandedEnvironments`;
otherwise every container is processed (the loop itself does not stop
after the first click) and the latch is set when some click fired. -/
def expandEnvironments (st : ContentState) : ContentState :=
  if st.hasAutoExpandedEnvironments then st
  else
    let processed := st.page.envContainers.map processEnvContainer
    { st with
      hasAutoExpandedEnvironments :=
        st.hasAutoExpandedEnvironments || processed.any (fun p => p.2)
      page := { st.page with envContainers := processed.map (fun p => p.1) } }

/-- `setEnvironmentsFullHeight()`: `list.style.maxHeight = 'none'` on
every `.merge-status-list`. -/
def setEnvironmentsFullHeight (st : ContentState) : ContentState :=
  { st with page := { st.page with
      statusLists := st.page.statusLists.map (fun _ => ⟨"none"⟩) } }

/-- `resetEnvironmentsHeight()`: `list.style.maxHeight = ''`. -/
def resetEnvironmentsHeight (st : ContentState) : ContentState :=
  { st with page := { st.page with
      statusLists := st.page.statusLists.map (fun _ => ⟨""⟩) } }

/-- The match test of the `expandLoadMore` loop:
`button.textContent.trim().toLowerCase().includes('load more')`. -/
def loadMoreMatches (b : LoadMoreButton) : Bool :=
  jsIncludes (jsToLower (jsTrim b.textContent)) "load more"

/-- Click the first pagination button whose trimmed, lower-cased text
contains `load more`; `none` when no button matches. -/
def clickFirstLoadMore : List LoadMoreButton → Option (List LoadMoreButton)
  | [] => none
  | b :: rest =>
      if loadMoreMatches b then
        some ({ b with clicks := b.clicks + 1 } :: rest)
      else (clickFirstLoadMore rest).map (fun l => b :: l)

/-- `expandLoadMore()`: a no-op once `expansionCount` has reached
`settings.expansionLimit`; otherwise at most one matching button is
clicked and the counter incremented (the loop returns after the first
match). -/
def expandLoadMore (st : ContentState) : ContentState :=
  if st.settings.expansionLimit ≤ (st.expansionCount : Int) then st
  else
    match clickFirstLoadMore st.page.loadMoreButtons with
    | some btns =>
        { st with
          expansionCount := st.expansionCount + 1
          page := { st.page with loadMoreButtons := btns } }
    | none => st

/-! ### The reconciliation entry points -/

/-- The successful-deployments part of `applySettings`:
`hideSuccessfulDeployments` takes precedence over
`hideOldSuccessfulDeployments`. -/
def succDocOp (s : Settings) (doc : List Node) : List Node :=
  if s.hideSuccessfulDeployments then hideSuccessfulDeployments doc
  else
    let doc₁ := showSuccessfulDeployments doc
    if s.hideOldSuccessfulDeployments then hideOldSuccessfulDeployments doc₁
    else showOldDeployments doc₁

/-- The destroyed-deployments part of `applySettings`. -/
def destroyedDocOp (s : Settings) (doc : List Node) : List Node :=
  if s.hideDestroyedDeployments then hideDestroyedDeployments doc
  else showDestroyedDeployments doc

/-- The failed-deployments part of `applySettings`. -/
def failedDocOp (s : Settings) (doc : List Node) : List Node :=
  if s.hideFailedDeployments then hideFailedDeployments doc
  else showFailedDeployments doc

/-- The timeline effect of an enabled `applySettings` run: successful,
then destroyed, then failed deployments. -/
def reconcileDoc (s : Settings) (doc : List Node) : List Node :=
  failedDocOp s (destroyedDocOp s (succDocOp s doc))

/-- The timeline effect of the disabled branch of `applySettings`:
`showSuccessfulDeployments(); showOldDeployments();
showDestroyedDeployments(); showFailedDeployments();`. -/
def revealAllDoc (doc : List Node) : List Node :=
  showFailedDeployments (showDestroyedDeployments
    (showOldDeployments (showSuccessfulDeployments doc)))

/-- `applySettings()`: reveal everything when disabled; otherwise
reconcile the three categories, then handle the auto-expand and
full-height features. -/
def applySettings (st : ContentState) : ContentState :=
  if st.settings.enabled = false then docUpdate st revealAllDoc
  else
    let st₁ := docUpdate st (reconcileDoc st.settings)
    let st₂ := if st.settings.autoExpandEnvironments then expandEnvironments st₁ else st₁
    if st.settings.environmentsFullHeight then setEnvironmentsFullHeight st₂
    else resetEnvironmentsHeight st₂

/-- `processPage()`: an early return when disabled; hiding rules only
(no reveals), then the expansion features including `expandLoadMore`. -/
def processPage (st : ContentState) : ContentState :=
  if st.settings.enabled = false then st
  else
    let st₁ :=
      if st.settings.hideSuccessfulDeployments then docUpdate st hideSuccessfulDeployments
      else if st.settings.hideOldSuccessfulDeployments then docUpdate st hideOldSuccessfulDeployments
      else st
    let st₂ :=
      if st.settings.hideDestroyedDeployments then docUpdate st₁ hideDestroyedDeployments
      else st₁
    let st₃ :=
      if st.settings.hideFailedDeployments then docUpdate st₂ hideFailedDeployments
      else st₂
    let st₄ :=
      if st.settings.autoExpandEnvironments then
        let a := expandEnvironments st₃
        if st.settings.environmentsFullHeight then setEnvironmentsFullHeight a else a
      else st₃
    if st.settings.autoExpandLoadMore then expandLoadMore st₄ else st₄

/-- The `settingsChanged` message listener: merge the partial record
into the cached snapshot, then run a full `applySettings` pass. -/
def onSettingsChanged (p : PartialSettings) (st : ContentState) : ContentState :=
  applySettings { st with settings := mergeSettings st.settings p }

/-- The counter resets performed at the top of the `turbo:load`
handler. -/
def navReset (st : ContentState) : ContentState :=
  { st with expansionCount := 0, hasAutoExpandedEnvironments := false }

/-- The `turbo:load` (full page navigation) handler: reset the
per-page counters, then process the page. -/
def onTurboLoad (st : ContentState) : ContentState :=
  processPage (navReset st)

/-! ### The mutation observer callback -/

/-- The shape tests the callback applies to an added node; each flag
records whether the node (a DOM element when `isElement`) or one of
its descendants matches the corresponding selector
(`node.matches?.(sel) || node.querySelector?.(sel)`). -/
structure AddedNode where
  isElement : Bool
  hasDeployedEvent : Bool
  hasDestroyedLabel : Bool
  hasFailedLabel : Bool
  hasTimelineItem : Bool
  hasPaginationBtn : Bool
  hasEnvContainer : Bool
  hasMergeStatusList : Bool
deriving DecidableEq, Repr

/-- A `MutationRecord` as consumed by the callback: its type, the
mutated attribute name and the toggle-button tests on its target (for
attribute records), and its added nodes (for childList records). -/
structure MutationRecord where
  isAttributes : Bool
  attributeName : Option String
  targetIsEnvToggle : Bool
  targetExpanded : Bool
  addedNodes : List AddedNode
deriving DecidableEq, Repr

/-- Handling of one attribute mutation: on an `aria-expanded` change
of an environments toggle button, apply full height when now expanded
(and the feature is enabled), and always reset the height when now
collapsed. -/
def handleAttrMutation (st : ContentState) (m : MutationRecord) : ContentState :=
  if m.attributeName = some "aria-expanded" then
    if m.targetIsEnvToggle then
      if m.targetExpanded then
        if st.settings.enabled && st.settings.environmentsFullHeight then
          setEnvironmentsFullHeight st
        else st
      else resetEnvironmentsHeight st
    else st
  else st

/-- `hasNewDeployments`: some childList mutation added an element
matching a deployed-event container or a destroyed/failure status
label. -/
def hasNewDeployments (childMuts : List MutationRecord) : Bool :=
  childMuts.any (fun m => m.addedNodes.any (fun n =>
    n.isElement && (n.hasDeployedEvent || n.hasDestroyedLabel || n.hasFailedLabel)))

/-- `hasNewTimelineContent`: some childList mutation added a timeline
item or a pagination button. -/
def hasNewTimelineContent (childMuts : List MutationRecord) : Bool :=
  childMuts.any (fun m => m.addedNodes.any (fun n =>
    n.isElement && (n.hasTimelineItem || n.hasPaginationBtn)))

/-- `hasNewEnvironments`: some childList mutation added an
environments container. -/
def hasNewEnvironments (childMuts : List MutationRecord) : Bool :=
  childMuts.any (fun m => m.addedNodes.any (fun n =>
    n.isElement && n.hasEnvContainer))

/-- `hasNewMergeStatusList`: some childList mutation added a
`.merge-status-list`. -/
def hasNewMergeStatusList (childMuts : List MutationRecord) : Bool :=
  childMuts.any (fun m => m.addedNodes.any (fun n =>
    n.isElement && n.hasMergeStatusList))

/-- The query for a currently expanded environments toggle used by the
merge-status-list branch of the callback. -/
def existsExpandedEnvToggle (st : ContentState) : Bool :=
  st.page.envContainers.any (fun c =>
    match c.button with
    | some b => b.ariaExpanded
    | none => false)

/-- The deployment dispatch of the callback (hiding rules only, in the
precedence order of `applySettings` but with no reveals). -/
def mutationDeploymentOps (st : ContentState) : ContentState :=
  let st₁ :=
    if st.settings.hideSuccessfulDeployments then docUpdate st hideSuccessfulDeployments
    else if st.settings.hideOldSuccessfulDeployments then docUpdate st hideOldSuccessfulDeployments
    else st
  let st₂ :=
    if st.settings.hideDestroyedDeployments then docUpdate st₁ hideDestroyedDeployments
    else st₁
  if st.settings.hideFailedDeployments then docUpdate st₂ hideFailedDeployments
  else st₂

/-- The `hasNewDeployments` branch of the callback. -/
def mutationDeployStep (hasNew : Bool) (st : ContentState) : ContentState :=
  if hasNew && st.settings.enabled then mutationDeploymentOps st else st

/-- The `hasNewTimelineContent` branch of the callback. -/
def mutationLoadMoreStep (hasNew : Bool) (st : ContentState) : ContentState :=
  if hasNew && st.settings.enabled && st.settings.autoExpandLoadMore then
    expandLoadMore st
  else st

/-- The `hasNewEnvironments` branch of the callback. -/
def mutationEnvStep (hasNew : Bool) (st : ContentState) : ContentState :=
  if hasNew && st.settings.enabled then
    let a := if st.settings.autoExpandEnvironments then expandEnvironments st else st
    if st.settings.environmentsFullHeight then setEnvironmentsFullHeight a else a
  else st

/-- The `hasNewMergeStatusList` branch of the callback: full height is
reapplied only while an expanded toggle is present. -/
def mutationMergeStep (hasNew : Bool) (st : ContentState) : ContentState :=
  if hasNew && st.settings.enabled && st.settings.environmentsFullHeight then
    if existsExpandedEnvToggle st then setEnvironmentsFullHeight st else st
  else st

/-- The `MutationObserver` callback: handle `aria-expanded` attribute
transitions, then dispatch on the four added-node summaries in source
order. -/
def mutationCallback (muts : List MutationRecord) (st : ContentState) : ContentState :=
  let attrMuts := muts.filter (fun m => m.isAttributes)
  let childMuts := muts.filter (fun m => !m.isAttributes)
  mutationMergeStep (hasNewMergeStatusList childMuts)
    (mutationEnvStep (hasNewEnvironments childMuts)
      (mutationLoadMoreStep (hasNewTimelineContent childMuts)
        (mutationDeployStep (hasNewDeployments childMuts)
          (attrMuts.foldl handleAttrMutation st))))

/-! ### Derived notions used by the statements -/

/-- Reference identity is injective on a real document: each DOM
element occurs exactly once. -/
def docWF (doc : List Node) : Prop :=
  (doc.map (fun n => n.id)).Nodup

/-- The deployed-event containers whose environment key is `k`, in
document order. -/
def envGroup (doc : List Node) (k : String) : List Node :=
  (successfulEntries doc).filter (fun n => decide (envKey n.attrs = k))

/-- Spec-side notion (from the glossary): the most recent deployment
for an environment is the last entry, in document order, among the
deployed-event entries sharing its environment key. -/
def isMostRecentForEnv (doc : List Node) (n : Node) : Prop :=
  (envGroup doc (envKey n.attrs)).getLast? = some n

/-- The `gh-hide-old-deployment` class of the entry at position `i`. -/
def clsOldAt (doc : List Node) (i : Nat) : Bool :=
  match doc[i]? with
  | some n => n.marks.clsOld
  | none => false

/-- The `gh-hide-successful-deployment` class of the entry at position
`i`. -/
def clsSuccessfulAt (doc : List Node) (i : Nat) : Bool :=
  match doc[i]? with
  | some n => n.marks.clsSuccessful
  | none => false

/-- The `gh-hide-destroyed-deployment` class of the entry at position
`i`. -/
def clsDestroyedAt (doc : List Node) (i : Nat) : Bool :=
  match doc[i]? with
  | some n => n.marks.clsDestroyed
  | none => false

/-- The `gh-hide-failed-deployment` class of the entry at position
`i`. -/
def clsFailedAt (doc : List Node) (i : Nat) : Bool :=
  match doc[i]? with
  | some n => n.marks.clsFailed
  | none => false

/-! ### Grouping lemmas -/

theorem groupLookup_insertGroup {α : Type} (m : List (String × List α))
    (k k' : String) (x : α) :
    groupLookup (insertGroup m k x) k' =
      if k' = k then groupLookup m k ++ [x] else groupLookup m k' := by
  induction m with
  | nil =>
      by_cases h : k' = k
      · subst h; simp [insertGroup, groupLookup]
      · have h2 : ¬ (k = k') := fun hh => h hh.symm
        simp [insertGroup, groupLookup, h, h2]
  | cons hd tl ih =>
      obtain ⟨k₀, xs⟩ := hd
      by_cases h₀ : k₀ = k
      · subst h₀
        by_cases h : k' = k₀
        · subst h; simp [insertGroup, groupLookup]
        · have h2 : ¬ (k₀ = k') := fun hh => h hh.symm
          simp [insertGroup, groupLookup, h, h2]
      · by_cases h : k' = k₀
        · have h2 : ¬ (k' = k) := fun hh => h₀ (h.symm.trans hh)
          have h3 : k₀ = k' := h.symm
          simp [insertGroup, groupLookup, h₀, h2, h3]
        · have h2 : ¬ (k₀ = k') := fun hh => h hh.symm
          by_cases h3 : k' = k
          · subst h3
            simp [insertGroup, groupLookup, h₀, h2, ih]
          · simp [insertGroup, groupLookup, h₀, h2, h3, ih]

theorem keys_insertGroup {α : Type} (m : List (String × List α)) (k : String) (x : α) :
    (insertGroup m k x).map Prod.fst =
      if k ∈ m.map Prod.fst then m.map Prod.fst else m.map Prod.fst ++ [k] := by
  induction m with
  | nil => simp [insertGroup]
  | cons hd tl ih =>
      obtain ⟨k₀, xs⟩ := hd
      by_cases h₀ : k₀ = k
      · subst h₀
        simp [insertGroup]
      · have h2 : ¬ (k = k₀) := fun hh => h₀ hh.symm
        by_cases hk : k ∈ tl.map Prod.fst <;>
          simp [insertGroup, h₀, h2, hk, ih]

theorem nodupKeys_insertGroup {α : Type} (m : List (String × List α))
    (k : String) (x : α) (h : (m.map Prod.fst).Nodup) :
    ((insertGroup m k x).map Prod.fst).Nodup := by
  rw [keys_insertGroup]
  by_cases hk : k ∈ m.map Prod.fst
  · simpa [hk]
  · simpa [hk] using List.Nodup.append h (List.nodup_singleton k)
      (by simpa [List.disjoint_singleton] using hk)

theorem groupLookup_of_mem {α : Type} (m : List (String × List α))
    (k : String) (xs : List α) (hnd : (m.map Prod.fst).Nodup)
    (hmem : (k, xs) ∈ m) : groupLookup m k = xs := by
  induction m with
  | nil => cases hmem
  | cons hd tl ih =>
      obtain ⟨k₀, ys⟩ := hd
      have hnd' : (k₀ :: tl.map Prod.fst).Nodup := by simpa using hnd
      rcases List.mem_cons.mp hmem with heq | htl
      · injection heq with h1 h2
        subst h1; subst h2
        simp [groupLookup]
      · have hk : k₀ ≠ k := by
          rintro rfl
          exact (List.nodup_cons.mp hnd').1
            (List.mem_map_of_mem Prod.fst htl)
        simp only [groupLookup, hk, if_false]
        exact ih (List.nodup_cons.mp hnd').2 htl

theorem mem_of_groupLookup_ne_nil {α : Type} (m : List (String × List α))
    (k : String) (h : groupLookup m k ≠ []) :
    (k, groupLookup m k) ∈ m := by
  induction m with
  | nil => simp [groupLookup] at h
  | cons hd tl ih =>
      obtain ⟨k₀, xs⟩ := hd
      by_cases hk : k₀ = k
      · subst hk
        simp [groupLookup]
      · simp only [groupLookup, hk, if_false] at h ⊢
        exact List.mem_cons_of_mem _ (ih h)

theorem groupLookup_foldl {α : Type} (key : α → String) (l : List α)
    (m : List (String × List α)) (k : String) :
    groupLookup (l.foldl (fun m x => insertGroup m (key x) x) m) k =
      groupLookup m k ++ l.filter (fun x => decide (key x = k)) := by
  induction l generalizing m with
  | nil => simp
  | cons a tl ih =>
      simp only [List.foldl_cons, ih, groupLookup_insertGroup, List.filter_cons]
      by_cases h : k = key a
      · simp [h, List.append_assoc]
      · have : ¬ key a = k := fun hh => h (Eq.symm hh)
        simp [h, this]

theorem nodupKeys_foldl {α : Type} (key : α → String) (l : List α)
    (m : List (String × List α)) (h : (m.map Prod.fst).Nodup) :
    (((l.foldl (fun m x => insertGroup m (key x) x) m)).map Prod.fst).Nodup := by
  induction l generalizing m with
  | nil => simpa
  | cons a tl ih => exact ih _ (nodupKeys_insertGroup _ _ _ h)

theorem collectOldGroups_eq (grps : List (String × List Node)) :
    collectOldGroups grps = grps.foldl (fun acc g => acc ++ g.2.dropLast) [] := by
  unfold collectOldGroups
  congr 1
  funext acc g
  by_cases h : g.2.length ≤ 1
  · have hd : g.2.dropLast = [] := by
      match hg : g.2 with
      | [] => rfl
      | [a] => rfl
      | a :: b :: t => rw [hg] at h; simp at h
    simp [h, hd]
  · simp [h]

theorem mem_foldl_append {α β : Type} (f : β → List α) (l : List β)
    (init : List α) (x : α) :
    (x ∈ l.foldl (fun acc g => acc ++ f g) init) ↔
      x ∈ init ∨ ∃ g ∈ l, x ∈ f g := by
  induction l generalizing init with
  | nil => simp
  | cons a tl ih =>
      simp only [List.foldl_cons, ih, List.mem_append, List.mem_cons]
      constructor
      · rintro (⟨h | h⟩ | ⟨g, hg, hx⟩)
        · exact Or.inl h
        · exact Or.inr ⟨a, Or.inl rfl, h⟩
        · exact Or.inr ⟨g, Or.inr hg, hx⟩
      · rintro (h | ⟨g, rfl | hg, hx⟩)
        · exact Or.inl (Or.inl h)
        · exact Or.inl (Or.inr hx)
        · exact Or.inr ⟨g, hg, hx⟩

theorem mem_collectOldGroups (grps : List (String × List Node)) (x : Node) :
    x ∈ collectOldGroups grps ↔ ∃ g ∈ grps, x ∈ g.2.dropLast := by
  rw [collectOldGroups_eq]
  simpa using mem_foldl_append (fun g : String × List Node => g.2.dropLast) grps [] x

theorem deploymentsByEnv_keys_nodup (doc : List Node) :
    ((deploymentsByEnv doc).map Prod.fst).Nodup :=
  nodupKeys_foldl _ _ [] (by simp)

theorem groupLookup_deploymentsByEnv (doc : List Node) (k : String) :
    groupLookup (deploymentsByEnv doc) k = envGroup doc k := by
  unfold deploymentsByEnv envGroup
  rw [groupLookup_foldl (fun n => envKey n.attrs) (successfulEntries doc) [] k]
  simp [groupLookup]

/-- Characterization of the marked set: a node is collected by the
grouping pass exactly when it sits strictly before the end of its own
environment group. -/
theorem mem_oldNodes_iff (doc : List Node) (x : Node) :
    x ∈ oldNodes doc ↔ x ∈ (envGroup doc (envKey x.attrs)).dropLast := by
  unfold oldNodes
  rw [mem_collectOldGroups]
  constructor
  · rintro ⟨g, hg, hx⟩
    have hlook : groupLookup (deploymentsByEnv doc) g.1 = g.2 :=
      groupLookup_of_mem _ _ _ (deploymentsByEnv_keys_nodup doc)
        (by simpa using hg)
    have hgrp : g.2 = envGroup doc g.1 := by
      rw [← hlook, groupLookup_deploymentsByEnv]
    have hxg : x ∈ envGroup doc g.1 := by
      rw [← hgrp]
      exact List.Sublist.subset (List.dropLast_sublist g.2) hx
    have hkey : envKey x.attrs = g.1 := by
      have := List.mem_filter.mp hxg
      simpa using this.2
    rw [hkey]
    rw [hgrp] at hx
    exact hx
  · intro hx
    have hne : envGroup doc (envKey x.attrs) ≠ [] :=
      List.ne_nil_of_mem
        (List.Sublist.subset (List.dropLast_sublist _) hx)
    have hlook : groupLookup (deploymentsByEnv doc) (envKey x.attrs) =
        envGroup doc (envKey x.attrs) :=
      groupLookup_deploymentsByEnv doc (envKey x.attrs)
    have hmem : (envKey x.attrs, envGroup doc (envKey x.attrs)) ∈ deploymentsByEnv doc := by
      have := mem_of_groupLookup_ne_nil (deploymentsByEnv doc) (envKey x.attrs)
        (by rw [hlook]; exact hne)
      rwa [hlook] at this
    exact ⟨(envKey x.attrs, envGroup doc (envKey x.attrs)), hmem, hx⟩

theorem envGroup_sublist (doc : List Node) (k : String) :
    List.Sublist (envGroup doc k) doc :=
  (List.filter_sublist _).trans (List.filter_sublist _)

theorem inj_of_nodup_map {α β : Type} (f : α → β) (l : List α)
    (h : (l.map f).Nodup) :
    ∀ a ∈ l, ∀ b ∈ l, f a = f b → a = b := by
  induction l with
  | nil => intro a ha; cases ha
  | cons hd tl ih =>
      have h' : (f hd :: tl.map f).Nodup := by simpa using h
      intro a ha b hb hab
      rcases List.mem_cons.mp ha with rfl | ha' <;>
        rcases List.mem_cons.mp hb with rfl | hb'
      · rfl
      · exact absurd (hab ▸ List.mem_map_of_mem f hb')
          (List.nodup_cons.mp h').1
      · exact absurd (hab ▸ List.mem_map_of_mem f ha')
          (List.nodup_cons.mp h').1
      · exact ih (List.nodup_cons.mp h').2 a ha' b hb' hab

theorem mem_dropLast_iff {α : Type} (l : List α) (hnd : l.Nodup)
    (hne : l ≠ []) (x : α) (hx : x ∈ l) :
    x ∈ l.dropLast ↔ x ≠ l.getLast hne := by
  have hsplit : l.dropLast ++ [l.getLast hne] = l :=
    List.dropLast_append_getLast hne
  have hnd' : (l.dropLast ++ [l.getLast hne]).Nodup := by rw [hsplit]; exact hnd
  have hdisj := (List.nodup_append.mp hnd').2.2
  constructor
  · intro hdl heq
    exact hdisj hdl (by simp [← heq])
  · intro hne'
    have : x ∈ l.dropLast ++ [l.getLast hne] := by rw [hsplit]; exact hx
    rcases List.mem_append.mp this with h | h
    · exact h
    · exact absurd (by simpa using h) hne'

theorem oldNodes_subset (doc : List Node) :
    ∀ x ∈ oldNodes doc, x ∈ doc := by
  intro x hx
  have := (mem_oldNodes_iff doc x).mp hx
  exact List.Sublist.subset (envGroup_sublist doc (envKey x.attrs))
    (List.Sublist.subset (List.dropLast_sublist _) this)

/-- Under reference-identity well-formedness, membership of a node's
identity in the marked-identity list coincides with membership of the
node itself in the marked set. -/
theorem oldIds_contains_iff (doc : List Node) (h : docWF doc)
    (n : Node) (hn : n ∈ doc) :
    (oldIds doc).contains n.id = true ↔ n ∈ oldNodes doc := by
  rw [List.elem_iff]
  unfold oldIds
  constructor
  · intro hmem
    rcases List.mem_map.mp hmem with ⟨m, hm, hid⟩
    have := inj_of_nodup_map (fun n => n.id) doc
      (show (doc.map (fun n => n.id)).Nodup from h) m
      (oldNodes_subset doc m hm) n hn hid
    rwa [← this]
  · intro hmem
    exact List.mem_map_of_mem _ hmem

theorem docWF_nodup {doc : List Node} (h : docWF doc) : doc.Nodup :=
  List.Nodup.of_map _ h

theorem envGroup_nodup {doc : List Node} (h : docWF doc) (k : String) :
    (envGroup doc k).Nodup :=
  List.Nodup.sublist (envGroup_sublist doc k) (docWF_nodup h)

theorem envKey_of_mem_envGroup {doc : List Node} {k : String} {n : Node}
    (hn : n ∈ envGroup doc k) : envKey n.attrs = k := by
  have := (List.mem_filter.mp hn).2
  simpa using this

/-- `hideOldSuccessfulDeployments` marks by element identity; the
early return on an empty query coincides with the general form. -/
theorem hideOld_eq (doc : List Node) :
    hideOldSuccessfulDeployments doc = doc.map (applyOldMark (oldIds doc)) := by
  unfold hideOldSuccessfulDeployments
  by_cases h : (successfulEntries doc).length = 0
  · have hse : successfulEntries doc = [] := List.length_eq_zero.mp h
    have hids : oldIds doc = [] := by
      unfold oldIds oldNodes deploymentsByEnv
      rw [hse]
      rfl
    have : ∀ n ∈ doc, applyOldMark (oldIds doc) n = n := by
      intro n _
      simp [applyOldMark, hids]
    simp only [h, if_true]
    exact (List.map_congr_left this ▸ (List.map_id doc).symm)
  · simp [h]

theorem mem_envGroup_iff_of_mem_doc {doc : List Node} {n : Node}
    (hn : n ∈ doc) :
    n ∈ envGroup doc (envKey n.attrs) ↔ classifiedSuccessful n = true := by
  constructor
  · intro h
    exact (List.mem_filter.mp ((List.mem_filter.mp h).1)).2
  · intro h
    exact List.mem_filter.mpr ⟨List.mem_filter.mpr ⟨hn, h⟩, by simp⟩

/-- The contains test agrees pointwise with being a non-last member of
the environment group. -/
theorem contains_oldIds_iff {doc : List Node} (h : docWF doc) {k : String}
    {n : Node} (hn : n ∈ envGroup doc k) (hG : envGroup doc k ≠ []) :
    (oldIds doc).contains n.id = true ↔ n ≠ (envGroup doc k).getLast hG := by
  have hdoc : n ∈ doc := List.Sublist.subset (envGroup_sublist doc k) hn
  have hkey : envKey n.attrs = k := envKey_of_mem_envGroup hn
  rw [oldIds_contains_iff doc h n hdoc, mem_oldNodes_iff, hkey]
  exact mem_dropLast_iff _ (envGroup_nodup h k) hG n hn

/-- C1: for every document and environment key whose group of
deployed-event entries is nonempty, `hideOldSuccessfulDeployments`
marks exactly `N - 1` of the `N` group members as old (so a singleton
group is never touched), the unmarked member is the one appearing last
in document order, and the function rewrites the document by applying
exactly this per-element mark. -/
theorem old_hiding_marks_all_but_last (doc : List Node) (k : String)
    (h : docWF doc) (hG : envGroup doc k ≠ []) :
    hideOldSuccessfulDeployments doc = doc.map (applyOldMark (oldIds doc))
    ∧ (∀ n ∈ envGroup doc k,
        ((oldIds doc).contains n.id = true ↔ n ≠ (envGroup doc k).getLast hG))
    ∧ ((envGroup doc k).filter (fun n => (oldIds doc).contains n.id)).length
        = (envGroup doc k).length - 1
    ∧ (∀ n ∈ envGroup doc k,
        applyOldMark (oldIds doc) n =
          if n = (envGroup doc k).getLast hG then n else markNodeOld n) := by
  have hiff : ∀ n ∈ envGroup doc k,
      ((oldIds doc).contains n.id = true ↔ n ≠ (envGroup doc k).getLast hG) :=
    fun n hn => contains_oldIds_iff h hn hG
  have hbool : ∀ n ∈ envGroup doc k,
      (oldIds doc).contains n.id = decide (n ≠ (envGroup doc k).getLast hG) := by
    intro n hn
    by_cases hc : n = (envGroup doc k).getLast hG
    · have hfalse : (oldIds doc).contains n.id = false := by
        cases hcc : (oldIds doc).contains n.id
        · rfl
        · exact absurd ((hiff n hn).mp hcc) (by simp [hc])
      simp only [hfalse]
      simp [hc]
    · rw [(hiff n hn).mpr hc]
      simp [hc]
  refine ⟨hideOld_eq doc, hiff, ?_, ?_⟩
  · rw [List.filter_congr hbool]
    have hsplit : (envGroup doc k).dropLast ++ [(envGroup doc k).getLast hG] =
        envGroup doc k := List.dropLast_append_getLast hG
    have hdl : (envGroup doc k).dropLast.filter
        (fun n => decide (n ≠ (envGroup doc k).getLast hG)) =
        (envGroup doc k).dropLast := by
      apply List.filter_eq_self.mpr
      intro a ha
      have haG : a ∈ envGroup doc k :=
        List.Sublist.subset (List.dropLast_sublist _) ha
      have := (mem_dropLast_iff _ (envGroup_nodup h k) hG a haG).mp ha
      simpa using this
    calc ((envGroup doc k).filter
            (fun n => decide (n ≠ (envGroup doc k).getLast hG))).length
        = (((envGroup doc k).dropLast ++ [(envGroup doc k).getLast hG]).filter
            (fun n => decide (n ≠ (envGroup doc k).getLast hG))).length := by
          rw [hsplit]
      _ = (envGroup doc k).dropLast.length := by
          rw [List.filter_append, hdl]
          simp
      _ = (envGroup doc k).length - 1 := List.length_dropLast _
  · intro n hn
    by_cases hc : n = (envGroup doc k).getLast hG
    · have hfalse : (oldIds doc).contains n.id = false := by
        cases hcc : (oldIds doc).contains n.id
        · rfl
        · exact absurd ((hiff n hn).mp hcc) (by simp [hc])
      simp only [applyOldMark, hfalse]
      simp [hc]
    · have htrue : (oldIds doc).contains n.id = true := (hiff n hn).mpr hc
      simp only [applyOldMark, htrue]
      simp [hc]

/-- Blank marker state. -/
def clearMarks : Marks := ⟨false, false, false, false, false, false, false⟩

/-- A deployed-event entry with the given identity and environment
link, with no markers applied yet. -/
def sampleDeploy (i : Nat) (env : String) : Node :=
  ⟨i, ⟨true, [], some env⟩, clearMarks⟩

/-- The scenario document of the specification: three deployments for
`staging` and one for `prod`. -/
def scenarioDoc : List Node :=
  [sampleDeploy 0 "staging", sampleDeploy 1 "staging",
   sampleDeploy 2 "prod", sampleDeploy 3 "staging"]

/-- Witness for C1 at the specification's own scenario: in the
`staging` group of three, exactly two entries are marked, and the
singleton `prod` group has no marked entry. -/
theorem old_hiding_marks_all_but_last_witness :
    docWF scenarioDoc
    ∧ envGroup scenarioDoc "staging" ≠ []
    ∧ ((envGroup scenarioDoc "staging").filter
        (fun n => (oldIds scenarioDoc).contains n.id)).length
        = (envGroup scenarioDoc "staging").length - 1
    ∧ envGroup scenarioDoc "prod" ≠ []
    ∧ ((envGroup scenarioDoc "prod").filter
        (fun n => (oldIds scenarioDoc).contains n.id)).length
        = (envGroup scenarioDoc "prod").length - 1 := by
  have hwf : docWF scenarioDoc := by
    show (scenarioDoc.map (fun n => n.id)).Nodup
    decide
  have h1 : envGroup scenarioDoc "staging" ≠ [] := by decide
  have h2 : envGroup scenarioDoc "prod" ≠ [] := by decide
  exact ⟨hwf, h1,
    (old_hiding_marks_all_but_last scenarioDoc "staging" hwf h1).2.2.1,
    h2,
    (old_hiding_marks_all_but_last scenarioDoc "prod" hwf h2).2.2.1⟩

/-! ### Marker writes never touch attributes or identity -/

theorem markNodeDestroyed_attrs (n : Node) : (markNodeDestroyed n).attrs = n.attrs := by
  unfold markNodeDestroyed; split <;> rfl

theorem markNodeDestroyed_id (n : Node) : (markNodeDestroyed n).id = n.id := by
  unfold markNodeDestroyed; split <;> rfl

theorem clearNodeDestroyed_attrs (n : Node) : (clearNodeDestroyed n).attrs = n.attrs := rfl

theorem clearNodeDestroyed_id (n : Node) : (clearNodeDestroyed n).id = n.id := rfl

theorem markNodeFailed_attrs (n : Node) : (markNodeFailed n).attrs = n.attrs := by
  unfold markNodeFailed; split <;> rfl

theorem markNodeFailed_id (n : Node) : (markNodeFailed n).id = n.id := by
  unfold markNodeFailed; split <;> rfl

theorem markNodeSuccessful_attrs (n : Node) : (markNodeSuccessful n).attrs = n.attrs := by
  unfold markNodeSuccessful; split <;> rfl

theorem markNodeSuccessful_id (n : Node) : (markNodeSuccessful n).id = n.id := by
  unfold markNodeSuccessful; split <;> rfl

theorem clearNodeSuccessful_attrs (n : Node) : (clearNodeSuccessful n).attrs = n.attrs := rfl

theorem clearNodeSuccessful_id (n : Node) : (clearNodeSuccessful n).id = n.id := rfl

theorem clearNodeFailed_attrs (n : Node) : (clearNodeFailed n).attrs = n.attrs := rfl

theorem clearNodeFailed_id (n : Node) : (clearNodeFailed n).id = n.id := rfl

theorem clearNodeOld_attrs (n : Node) : (clearNodeOld n).attrs = n.attrs := rfl

theorem clearNodeOld_id (n : Node) : (clearNodeOld n).id = n.id := rfl

theorem markNodeOld_attrs (n : Node) : (markNodeOld n).attrs = n.attrs := rfl

theorem markNodeOld_id (n : Node) : (markNodeOld n).id = n.id := rfl

theorem applyOldMark_attrs (ids : List Nat) (n : Node) :
    (applyOldMark ids n).attrs = n.attrs := by
  unfold applyOldMark; split <;> rfl

theorem applyOldMark_id (ids : List Nat) (n : Node) :
    (applyOldMark ids n).id = n.id := by
  unfold applyOldMark; split <;> rfl

/-! ### The marked set only depends on attributes and identity -/

/-- Map a node transformation over every group. -/
def mapGroups (f : Node → Node) (grps : List (String × List Node)) :
    List (String × List Node) :=
  grps.map (fun g => (g.1, g.2.map f))

theorem successfulEntries_map (doc : List Node) (f : Node → Node)
    (hattrs : ∀ n, (f n).attrs = n.attrs) :
    successfulEntries (doc.map f) = (successfulEntries doc).map f := by
  unfold successfulEntries
  rw [List.filter_map]
  congr 1
  apply List.filter_congr
  intro n _
  simp [Function.comp, classifiedSuccessful, hattrs n]

theorem insertGroup_map (f : Node → Node) (m : List (String × List Node))
    (k : String) (x : Node) :
    insertGroup (mapGroups f m) k (f x) = mapGroups f (insertGroup m k x) := by
  induction m with
  | nil => rfl
  | cons hd tl ih =>
      obtain ⟨k₀, xs⟩ := hd
      by_cases h : k₀ = k
      · simp [insertGroup, mapGroups, h]
      · simp only [mapGroups, List.map_cons, insertGroup, h, if_false]
        simpa [mapGroups] using ih

theorem foldl_insertGroup_map (f : Node → Node)
    (hattrs : ∀ n, (f n).attrs = n.attrs) (l : List Node)
    (m : List (String × List Node)) :
    (l.map f).foldl (fun m n => insertGroup m (envKey n.attrs) n) (mapGroups f m)
      = mapGroups f (l.foldl (fun m n => insertGroup m (envKey n.attrs) n) m) := by
  induction l generalizing m with
  | nil => rfl
  | cons a tl ih =>
      simp only [List.map_cons, List.foldl_cons, hattrs a, insertGroup_map]
      exact ih _

theorem deploymentsByEnv_map (doc : List Node) (f : Node → Node)
    (hattrs : ∀ n, (f n).attrs = n.attrs) :
    deploymentsByEnv (doc.map f) = mapGroups f (deploymentsByEnv doc) := by
  unfold deploymentsByEnv
  rw [successfulEntries_map doc f hattrs]
  exact foldl_insertGroup_map f hattrs (successfulEntries doc) []

theorem foldl_collect_map (f : Node → Node) (grps : List (String × List Node))
    (acc : List Node) :
    (mapGroups f grps).foldl (fun acc g => acc ++ g.2.dropLast) (acc.map f)
      = (grps.foldl (fun acc g => acc ++ g.2.dropLast) acc).map f := by
  induction grps generalizing acc with
  | nil => rfl
  | cons hd tl ih =>
      simp only [mapGroups, List.map_cons, List.foldl_cons]
      rw [← List.map_dropLast, ← List.map_append]
      exact ih _

theorem collectOldGroups_map (f : Node → Node) (grps : List (String × List Node)) :
    collectOldGroups (mapGroups f grps) = (collectOldGroups grps).map f := by
  rw [collectOldGroups_eq, collectOldGroups_eq]
  exact foldl_collect_map f grps []

/-- The identities marked old are computed from attributes and
identities only, hence invariant under every marker write. -/
theorem oldIds_map (doc : List Node) (f : Node → Node)
    (hattrs : ∀ n, (f n).attrs = n.attrs) (hid : ∀ n, (f n).id = n.id) :
    oldIds (doc.map f) = oldIds doc := by
  unfold oldIds oldNodes
  rw [deploymentsByEnv_map doc f hattrs, collectOldGroups_map, List.map_map]
  congr 1
  funext n
  exact hid n

/-! ### State-level frame lemmas -/

theorem expandEnvironments_settings (st : ContentState) :
    (expandEnvironments st).settings = st.settings := by
  unfold expandEnvironments; split <;> rfl

theorem expandEnvironments_expansionCount (st : ContentState) :
    (expandEnvironments st).expansionCount = st.expansionCount := by
  unfold expandEnvironments; split <;> rfl

theorem expandEnvironments_doc (st : ContentState) :
    (expandEnvironments st).page.doc = st.page.doc := by
  unfold expandEnvironments; split <;> rfl

theorem expandEnvironments_statusLists (st : ContentState) :
    (expandEnvironments st).page.statusLists = st.page.statusLists := by
  unfold expandEnvironments; split <;> rfl

theorem expandEnvironments_loadMoreButtons (st : ContentState) :
    (expandEnvironments st).page.loadMoreButtons = st.page.loadMoreButtons := by
  unfold expandEnvironments; split <;> rfl

theorem expandLoadMore_settings (st : ContentState) :
    (expandLoadMore st).settings = st.settings := by
  unfold expandLoadMore
  split
  · rfl
  · split <;> rfl

theorem expandLoadMore_hasAutoExpanded (st : ContentState) :
    (expandLoadMore st).hasAutoExpandedEnvironments = st.hasAutoExpandedEnvironments := by
  unfold expandLoadMore
  split
  · rfl
  · split <;> rfl

theorem expandLoadMore_doc (st : ContentState) :
    (expandLoadMore st).page.doc = st.page.doc := by
  unfold expandLoadMore
  split
  · rfl
  · split <;> rfl

theorem expandLoadMore_envContainers (st : ContentState) :
    (expandLoadMore st).page.envContainers = st.page.envContainers := by
  unfold expandLoadMore
  split
  · rfl
  · split <;> rfl

theorem expandLoadMore_statusLists (st : ContentState) :
    (expandLoadMore st).page.statusLists = st.page.statusLists := by
  unfold expandLoadMore
  split
  · rfl
  · split <;> rfl

theorem expandLoadMore_count_mono (st : ContentState) :
    st.expansionCount ≤ (expandLoadMore st).expansionCount := by
  unfold expandLoadMore
  split
  · exact Nat.le_refl _
  · split
    · exact Nat.le_succ _
    · exact Nat.le_refl _

theorem expandEnvironments_latch_mono (st : ContentState) :
    st.hasAutoExpandedEnvironments ≤ (expandEnvironments st).hasAutoExpandedEnvironments := by
  unfold expandEnvironments
  split
  · exact le_refl _
  · next h =>
      have hf : st.hasAutoExpandedEnvironments = false := by
        cases hc : st.hasAutoExpandedEnvironments
        · rfl
        · exact absurd hc h
      simp [hf]

theorem applySettings_settings (st : ContentState) :
    (applySettings st).settings = st.settings := by
  unfold applySettings
  by_cases h1 : st.settings.enabled = false
  · simp [h1, docUpdate]
  · by_cases h2 : st.settings.autoExpandEnvironments <;>
      by_cases h3 : st.settings.environmentsFullHeight <;>
        simp [h1, h2, h3, docUpdate, expandEnvironments_settings,
          setEnvironmentsFullHeight, resetEnvironmentsHeight]

theorem applySettings_expansionCount (st : ContentState) :
    (applySettings st).expansionCount = st.expansionCount := by
  unfold applySettings
  by_cases h1 : st.settings.enabled = false
  · simp [h1, docUpdate]
  · by_cases h2 : st.settings.autoExpandEnvironments <;>
      by_cases h3 : st.settings.environmentsFullHeight <;>
        simp [h1, h2, h3, docUpdate, expandEnvironments_expansionCount,
          setEnvironmentsFullHeight, resetEnvironmentsHeight]

theorem applySettings_loadMoreButtons (st : ContentState) :
    (applySettings st).page.loadMoreButtons = st.page.loadMoreButtons := by
  unfold applySettings
  by_cases h1 : st.settings.enabled = false
  · simp [h1, docUpdate]
  · by_cases h2 : st.settings.autoExpandEnvironments <;>
      by_cases h3 : st.settings.environmentsFullHeight <;>
        simp [h1, h2, h3, docUpdate, expandEnvironments_loadMoreButtons,
          setEnvironmentsFullHeight, resetEnvironmentsHeight]

/-! ### Claim C3: disabled reveals everything -/

/-- The reveal pipeline of the disabled branch, fused into one map. -/
theorem revealAllDoc_eq (doc : List Node) :
    revealAllDoc doc = doc.map (fun n =>
      clearNodeFailed (clearNodeDestroyed (clearNodeOld (clearNodeSuccessful n)))) := by
  unfold revealAllDoc showFailedDeployments showDestroyedDeployments
    showOldDeployments showSuccessfulDeployments
  simp [List.map_map]

/-- C3: with `enabled = false`, one `applySettings` pass removes every
hide marker (all four categories are visible), leaves the entry
attributes and every other component of the state untouched, and
`processPage` applies no further rule at all (it is the identity). -/
theorem disabled_reveals_everything (st : ContentState)
    (h : st.settings.enabled = false) :
    (∀ n ∈ (applySettings st).page.doc,
        n.marks.clsSuccessful = false ∧ n.marks.clsOld = false
        ∧ n.marks.clsDestroyed = false ∧ n.marks.clsFailed = false)
    ∧ (applySettings st).page.doc.map (fun n => n.attrs)
        = st.page.doc.map (fun n => n.attrs)
    ∧ (applySettings st).settings = st.settings
    ∧ (applySettings st).expansionCount = st.expansionCount
    ∧ (applySettings st).hasAutoExpandedEnvironments = st.hasAutoExpandedEnvironments
    ∧ (applySettings st).page.envContainers = st.page.envContainers
    ∧ (applySettings st).page.statusLists = st.page.statusLists
    ∧ (applySettings st).page.loadMoreButtons = st.page.loadMoreButtons
    ∧ processPage st = st := by
  have happ : applySettings st = docUpdate st revealAllDoc := by
    unfold applySettings
    simp [h]
  rw [happ]
  refine ⟨?_, ?_, rfl, rfl, rfl, rfl, rfl, rfl, ?_⟩
  · intro n hn
    simp only [docUpdate, revealAllDoc_eq] at hn
    rcases List.mem_map.mp hn with ⟨m, _, rfl⟩
    simp [clearNodeFailed, clearNodeDestroyed, clearNodeOld, clearNodeSuccessful]
  · show (revealAllDoc st.page.doc).map (fun n => n.attrs) = _
    rw [revealAllDoc_eq, List.map_map]
    congr 1
  · unfold processPage
    simp [h]

/-- A fully marked deployed-event entry. -/
def markedNode : Node :=
  ⟨0, ⟨true, [destroyedTitle], some "prod"⟩,
   ⟨true, true, true, true, true, true, true⟩⟩

/-- A disabled state whose only entry carries every marker. -/
def disabledState : ContentState :=
  ⟨⟨false, true, true, true, true, true, true, true, 2⟩, 3, true,
   ⟨[markedNode], [], [], []⟩⟩

/-- Witness for C3 at a concrete disabled state with all markers set:
`processPage` is the identity and the `applySettings` pass clears the
entry's hide classes. -/
theorem disabled_reveals_everything_witness :
    disabledState.settings.enabled = false
    ∧ processPage disabledState = disabledState
    ∧ ((applySettings disabledState).page.doc.all (fun n =>
        !n.marks.clsSuccessful && !n.marks.clsOld
        && !n.marks.clsDestroyed && !n.marks.clsFailed)) = true := by
  have h : disabledState.settings.enabled = false := rfl
  refine ⟨h, (disabled_reveals_everything disabledState h).2.2.2.2.2.2.2.2, ?_⟩
  rw [List.all_eq_true]
  intro n hn
  have := (disabled_reveals_everything disabledState h).1 n hn
  simp [this.1, this.2.1, this.2.2.1, this.2.2.2]

/-! ### Claim C10: the settings-change handler never paginates -/

/-- C10: a `settingsChanged` message triggers a full `applySettings`
pass, which never invokes the pagination driver: the expansion counter
and the pagination buttons (their click counts included) are exactly
as before, for every incoming partial record and every state — in
particular even when `enabled`, `autoExpandLoadMore` and remaining
budget would allow a click. -/
theorem settings_change_never_paginates (p : PartialSettings) (st : ContentState) :
    (onSettingsChanged p st).expansionCount = st.expansionCount
    ∧ (onSettingsChanged p st).page.loadMoreButtons = st.page.loadMoreButtons := by
  unfold onSettingsChanged
  exact ⟨applySettings_expansionCount _, applySettings_loadMoreButtons _⟩

/-! ### Claim C7: navigation resets, mutations never do -/

theorem handleAttrMutation_settings (st : ContentState) (m : MutationRecord) :
    (handleAttrMutation st m).settings = st.settings := by
  unfold handleAttrMutation
  split
  · split
    · split
      · split <;> rfl
      · rfl
    · rfl
  · rfl

theorem handleAttrMutation_expansionCount (st : ContentState) (m : MutationRecord) :
    (handleAttrMutation st m).expansionCount = st.expansionCount := by
  unfold handleAttrMutation
  split
  · split
    · split
      · split <;> rfl
      · rfl
    · rfl
  · rfl

theorem handleAttrMutation_latch (st : ContentState) (m : MutationRecord) :
    (handleAttrMutation st m).hasAutoExpandedEnvironments
      = st.hasAutoExpandedEnvironments := by
  unfold handleAttrMutation
  split
  · split
    · split
      · split <;> rfl
      · rfl
    · rfl
  · rfl

theorem foldl_handleAttr_settings (muts : List MutationRecord) (st : ContentState) :
    (muts.foldl handleAttrMutation st).settings = st.settings := by
  induction muts generalizing st with
  | nil => rfl
  | cons m tl ih => rw [List.foldl_cons, ih, handleAttrMutation_settings]

theorem foldl_handleAttr_expansionCount (muts : List MutationRecord) (st : ContentState) :
    (muts.foldl handleAttrMutation st).expansionCount = st.expansionCount := by
  induction muts generalizing st with
  | nil => rfl
  | cons m tl ih => rw [List.foldl_cons, ih, handleAttrMutation_expansionCount]

theorem foldl_handleAttr_latch (muts : List MutationRecord) (st : ContentState) :
    (muts.foldl handleAttrMutation st).hasAutoExpandedEnvironments
      = st.hasAutoExpandedEnvironments := by
  induction muts generalizing st with
  | nil => rfl
  | cons m tl ih => rw [List.foldl_cons, ih, handleAttrMutation_latch]

theorem mutationDeploymentOps_settings (st : ContentState) :
    (mutationDeploymentOps st).settings = st.settings := by
  unfold mutationDeploymentOps
  split_ifs <;> rfl

theorem mutationDeploymentOps_expansionCount (st : ContentState) :
    (mutationDeploymentOps st).expansionCount = st.expansionCount := by
  unfold mutationDeploymentOps
  split_ifs <;> rfl

theorem mutationDeploymentOps_latch (st : ContentState) :
    (mutationDeploymentOps st).hasAutoExpandedEnvironments
      = st.hasAutoExpandedEnvironments := by
  unfold mutationDeploymentOps
  split_ifs <;> rfl

theorem mutationDeployStep_settings (b : Bool) (st : ContentState) :
    (mutationDeployStep b st).settings = st.settings := by
  unfold mutationDeployStep
  split_ifs <;> simp [mutationDeploymentOps_settings]

theorem mutationDeployStep_expansionCount (b : Bool) (st : ContentState) :
    (mutationDeployStep b st).expansionCount = st.expansionCount := by
  unfold mutationDeployStep
  split_ifs <;> simp [mutationDeploymentOps_expansionCount]

theorem mutationDeployStep_latch (b : Bool) (st : ContentState) :
    (mutationDeployStep b st).hasAutoExpandedEnvironments
      = st.hasAutoExpandedEnvironments := by
  unfold mutationDeployStep
  split_ifs <;> simp [mutationDeploymentOps_latch]

theorem mutationLoadMoreStep_settings (b : Bool) (st : ContentState) :
    (mutationLoadMoreStep b st).settings = st.settings := by
  unfold mutationLoadMoreStep
  split_ifs <;> simp [expandLoadMore_settings]

theorem mutationLoadMoreStep_count_mono (b : Bool) (st : ContentState) :
    st.expansionCount ≤ (mutationLoadMoreStep b st).expansionCount := by
  unfold mutationLoadMoreStep
  split_ifs
  · exact expandLoadMore_count_mono st
  · exact Nat.le_refl _

theorem mutationLoadMoreStep_latch (b : Bool) (st : ContentState) :
    (mutationLoadMoreStep b st).hasAutoExpandedEnvironments
      = st.hasAutoExpandedEnvironments := by
  unfold mutationLoadMoreStep
  split_ifs <;> simp [expandLoadMore_hasAutoExpanded]

theorem mutationEnvStep_settings (b : Bool) (st : ContentState) :
    (mutationEnvStep b st).settings = st.settings := by
  unfold mutationEnvStep
  split_ifs <;>
    simp [expandEnvironments_settings, setEnvironmentsFullHeight]

theorem mutationEnvStep_expansionCount (b : Bool) (st : ContentState) :
    (mutationEnvStep b st).expansionCount = st.expansionCount := by
  unfold mutationEnvStep
  split_ifs <;>
    simp [expandEnvironments_expansionCount, setEnvironmentsFullHeight]

theorem mutationEnvStep_latch_mono (b : Bool) (st : ContentState) :
    st.hasAutoExpandedEnvironments
      ≤ (mutationEnvStep b st).hasAutoExpandedEnvironments := by
  unfold mutationEnvStep
  split_ifs <;>
    first
      | exact le_refl _
      | (simpa [setEnvironmentsFullHeight]
          using expandEnvironments_latch_mono st)

theorem mutationMergeStep_settings (b : Bool) (st : ContentState) :
    (mutationMergeStep b st).settings = st.settings := by
  unfold mutationMergeStep
  split_ifs <;> simp [setEnvironmentsFullHeight]

theorem mutationMergeStep_expansionCount (b : Bool) (st : ContentState) :
    (mutationMergeStep b st).expansionCount = st.expansionCount := by
  unfold mutationMergeStep
  split_ifs <;> simp [setEnvironmentsFullHeight]

theorem mutationMergeStep_latch (b : Bool) (st : ContentState) :
    (mutationMergeStep b st).hasAutoExpandedEnvironments
      = st.hasAutoExpandedEnvironments := by
  unfold mutationMergeStep
  split_ifs <;> simp [setEnvironmentsFullHeight]

theorem mutationCallback_settings (muts : List MutationRecord) (st : ContentState) :
    (mutationCallback muts st).settings = st.settings := by
  unfold mutationCallback
  rw [mutationMergeStep_settings, mutationEnvStep_settings,
    mutationLoadMoreStep_settings, mutationDeployStep_settings,
    foldl_handleAttr_settings]

theorem mutationCallback_count_mono (muts : List MutationRecord) (st : ContentState) :
    st.expansionCount ≤ (mutationCallback muts st).expansionCount := by
  unfold mutationCallback
  rw [mutationMergeStep_expansionCount, mutationEnvStep_expansionCount]
  calc st.expansionCount
      = (mutationDeployStep (hasNewDeployments (muts.filter (fun m => !m.isAttributes)))
          ((muts.filter (fun m => m.isAttributes)).foldl handleAttrMutation st)).expansionCount := by
        rw [mutationDeployStep_expansionCount, foldl_handleAttr_expansionCount]
    _ ≤ _ := mutationLoadMoreStep_count_mono _ _

theorem mutationCallback_latch_mono (muts : List MutationRecord) (st : ContentState) :
    st.hasAutoExpandedEnvironments
      ≤ (mutationCallback muts st).hasAutoExpandedEnvironments := by
  unfold mutationCallback
  rw [mutationMergeStep_latch]
  calc st.hasAutoExpandedEnvironments
      = (mutationLoadMoreStep (hasNewTimelineContent (muts.filter (fun m => !m.isAttributes)))
          (mutationDeployStep (hasNewDeployments (muts.filter (fun m => !m.isAttributes)))
            ((muts.filter (fun m => m.isAttributes)).foldl handleAttrMutation st))).hasAutoExpandedEnvironments := by
        rw [mutationLoadMoreStep_latch, mutationDeployStep_latch, foldl_handleAttr_latch]
    _ ≤ _ := mutationEnvStep_latch_mono _ _

theorem processPage_settings (st : ContentState) :
    (processPage st).settings = st.settings := by
  unfold processPage
  split_ifs <;>
    simp [docUpdate, expandLoadMore_settings, expandEnvironments_settings,
      setEnvironmentsFullHeight, resetEnvironmentsHeight]

/-- C7: the navigation handler resets `expansionCount` to `0` and the
environments latch to `false` while leaving the cached settings
snapshot untouched (also after the subsequent `processPage` run),
whereas the mutation-observer callback never performs such a reset:
it keeps the settings, never decreases `expansionCount` and never
clears the latch. -/
theorem navigation_resets_counters (st : ContentState) (muts : List MutationRecord) :
    (navReset st).expansionCount = 0
    ∧ (navReset st).hasAutoExpandedEnvironments = false
    ∧ (navReset st).settings = st.settings
    ∧ (onTurboLoad st).settings = st.settings
    ∧ (mutationCallback muts st).settings = st.settings
    ∧ st.expansionCount ≤ (mutationCallback muts st).expansionCount
    ∧ st.hasAutoExpandedEnvironments
        ≤ (mutationCallback muts st).hasAutoExpandedEnvironments := by
  refine ⟨rfl, rfl, rfl, ?_, mutationCallback_settings muts st,
    mutationCallback_count_mono muts st, mutationCallback_latch_mono muts st⟩
  unfold onTurboLoad
  rw [processPage_settings]
  rfl

/-! ### Claim C4: bounded pagination expansion -/

/-- Total number of synthetic clicks delivered to pagination buttons. -/
def totalLoadMoreClicks (btns : List LoadMoreButton) : Nat :=
  (btns.map (fun b => b.clicks)).sum

/-- Some pagination button matches the `load more` test. -/
def hasMatchingLoadMore (btns : List LoadMoreButton) : Bool :=
  btns.any loadMoreMatches

theorem bool_eq_false {b : Bool} (h : ¬ b = true) : b = false := by
  cases hb : b
  · rfl
  · exact absurd hb h

theorem clickFirstLoadMore_none_iff (btns : List LoadMoreButton) :
    clickFirstLoadMore btns = none ↔ hasMatchingLoadMore btns = false := by
  induction btns with
  | nil => simp [clickFirstLoadMore, hasMatchingLoadMore]
  | cons b rest ih =>
      by_cases hb : loadMoreMatches b
      · simp [clickFirstLoadMore, hasMatchingLoadMore, hb]
      · rw [clickFirstLoadMore, if_neg hb, Option.map_eq_none', ih]
        simp [hasMatchingLoadMore, bool_eq_false hb]

theorem clickFirstLoadMore_some (btns btns' : List LoadMoreButton)
    (h : clickFirstLoadMore btns = some btns') :
    btns'.map (fun b => b.textContent) = btns.map (fun b => b.textContent)
    ∧ totalLoadMoreClicks btns' = totalLoadMoreClicks btns + 1 := by
  induction btns generalizing btns' with
  | nil => cases h
  | cons b rest ih =>
      by_cases hb : loadMoreMatches b
      · rw [clickFirstLoadMore, if_pos hb] at h
        cases h
        refine ⟨by simp, ?_⟩
        simp only [totalLoadMoreClicks, List.map_cons, List.sum_cons]
        omega
      · rw [clickFirstLoadMore, if_neg hb] at h
        cases hr : clickFirstLoadMore rest with
        | none => rw [hr] at h; cases h
        | some rest' =>
            rw [hr] at h
            cases h
            obtain ⟨h1, h2⟩ := ih rest' hr
            refine ⟨by simp [h1], ?_⟩
            simp only [totalLoadMoreClicks, List.map_cons, List.sum_cons]
            simp only [totalLoadMoreClicks] at h2
            omega

theorem hasMatchingLoadMore_of_texts (btns btns' : List LoadMoreButton)
    (h : btns'.map (fun b => b.textContent) = btns.map (fun b => b.textContent)) :
    hasMatchingLoadMore btns' = hasMatchingLoadMore btns := by
  unfold hasMatchingLoadMore
  have ha : ∀ l : List LoadMoreButton,
      l.any loadMoreMatches =
        (l.map (fun b => b.textContent)).any
          (fun t => jsIncludes (jsToLower (jsTrim t)) "load more") := by
    intro l
    induction l with
    | nil => rfl
    | cons x xs ih => simp [loadMoreMatches, ih]
  rw [ha, ha, h]

theorem expandLoadMore_noop (st : ContentState)
    (h : st.settings.expansionLimit ≤ (st.expansionCount : Int)) :
    expandLoadMore st = st := by
  unfold expandLoadMore
  rw [if_pos h]

/-- One successful driver invocation: if the counter is below the
limit and a matching button exists, exactly one click is delivered,
the counter increments, and settings and button texts survive. -/
theorem expandLoadMore_step (st : ContentState) (L : Nat)
    (hL : st.settings.expansionLimit = (L : Int))
    (hm : hasMatchingLoadMore st.page.loadMoreButtons = true)
    (hlt : st.expansionCount < L) :
    (expandLoadMore st).expansionCount = st.expansionCount + 1
    ∧ totalLoadMoreClicks (expandLoadMore st).page.loadMoreButtons
        = totalLoadMoreClicks st.page.loadMoreButtons + 1
    ∧ (expandLoadMore st).page.loadMoreButtons.map (fun b => b.textContent)
        = st.page.loadMoreButtons.map (fun b => b.textContent)
    ∧ (expandLoadMore st).settings = st.settings := by
  have hguard : ¬ (st.settings.expansionLimit ≤ (st.expansionCount : Int)) := by
    rw [hL]
    exact fun hc => absurd (Int.ofNat_le.mp hc) (Nat.not_le_of_lt hlt)
  have hsome : clickFirstLoadMore st.page.loadMoreButtons ≠ none := by
    rw [Ne, clickFirstLoadMore_none_iff, hm]
    simp
  unfold expandLoadMore
  rw [if_neg hguard]
  cases hc : clickFirstLoadMore st.page.loadMoreButtons with
  | none => exact absurd hc hsome
  | some btns' =>
      obtain ⟨h1, h2⟩ := clickFirstLoadMore_some _ _ hc
      exact ⟨rfl, h2, h1, rfl⟩

/-- The iterate invariant behind C4. -/
theorem expandLoadMore_iterate (st : ContentState) (L : Nat)
    (hL : st.settings.expansionLimit = (L : Int))
    (h0 : st.expansionCount = 0)
    (hm : hasMatchingLoadMore st.page.loadMoreButtons = true) :
    ∀ n, (expandLoadMore^[n] st).expansionCount = min n L
    ∧ totalLoadMoreClicks (expandLoadMore^[n] st).page.loadMoreButtons
        = totalLoadMoreClicks st.page.loadMoreButtons + min n L
    ∧ (expandLoadMore^[n] st).settings = st.settings
    ∧ (expandLoadMore^[n] st).page.loadMoreButtons.map (fun b => b.textContent)
        = st.page.loadMoreButtons.map (fun b => b.textContent) := by
  intro n
  induction n with
  | zero => simp [h0]
  | succ n ih =>
      obtain ⟨ih1, ih2, ih3, ih4⟩ := ih
      rw [Function.iterate_succ_apply']
      by_cases hn : n < L
      · have hcount : (expandLoadMore^[n] st).expansionCount < L := by
          rw [ih1]; omega
        have hm' : hasMatchingLoadMore (expandLoadMore^[n] st).page.loadMoreButtons = true := by
          rw [hasMatchingLoadMore_of_texts _ _ ih4]; exact hm
        obtain ⟨s1, s2, s3, s4⟩ :=
          expandLoadMore_step (expandLoadMore^[n] st) L (by rw [ih3, hL]) hm' hcount
        refine ⟨?_, ?_, ?_, ?_⟩
        · rw [s1, ih1]; omega
        · rw [s2, ih2]; omega
        · rw [s4, ih3]
        · rw [s3, ih4]
      · have hstop : (expandLoadMore^[n] st).settings.expansionLimit
            ≤ ((expandLoadMore^[n] st).expansionCount : Int) := by
          rw [ih3, hL, ih1]
          have : min n L = L := by omega
          rw [this]
        rw [expandLoadMore_noop _ hstop]
        have hmin : min (n + 1) L = min n L := by omega
        rw [hmin]
        exact ⟨ih1, ih2, ih3, ih4⟩

/-- C4: the pagination driver clicks at most one control per
invocation; when a matching control is always present, starting from a
fresh page (`expansionCount = 0`) with limit `L`, `n` re-invocations
have performed exactly `min n L` clicks — so exactly `L` clicks ever
happen — and once the limit is reached every further invocation is a
no-op: the whole process is fixed after the `L`-th trigger. -/
theorem load_more_bounded_termination (st : ContentState) (L : Nat)
    (hL : st.settings.expansionLimit = (L : Int))
    (h0 : st.expansionCount = 0)
    (hm : hasMatchingLoadMore st.page.loadMoreButtons = true) :
    (∀ st' : ContentState,
        totalLoadMoreClicks (expandLoadMore st').page.loadMoreButtons
          ≤ totalLoadMoreClicks st'.page.loadMoreButtons + 1)
    ∧ (∀ n, (expandLoadMore^[n] st).expansionCount = min n L
        ∧ totalLoadMoreClicks (expandLoadMore^[n] st).page.loadMoreButtons
            = totalLoadMoreClicks st.page.loadMoreButtons + min n L)
    ∧ (∀ n, L ≤ n → expandLoadMore^[n] st = expandLoadMore^[L] st) := by
  refine ⟨?_, ?_, ?_⟩
  · intro st'
    unfold expandLoadMore
    split
    · exact Nat.le_succ_of_le (Nat.le_refl _)
    · cases hc : clickFirstLoadMore st'.page.loadMoreButtons with
      | none => exact Nat.le_succ_of_le (Nat.le_refl _)
      | some btns' =>
          have := (clickFirstLoadMore_some _ _ hc).2
          simp [this]
  · intro n
    obtain ⟨h1, h2, _, _⟩ := expandLoadMore_iterate st L hL h0 hm n
    exact ⟨h1, h2⟩
  · intro n hn
    induction n with
    | zero =>
        have : L = 0 := Nat.le_zero.mp hn
        rw [this]
    | succ n ihn =>
        by_cases hn' : L ≤ n
        · rw [Function.iterate_succ_apply', ihn hn']
          have hfix : expandLoadMore (expandLoadMore^[L] st) = expandLoadMore^[L] st := by
            obtain ⟨h1, _, h3, _⟩ := expandLoadMore_iterate st L hL h0 hm L
            apply expandLoadMore_noop
            rw [h3, hL, h1]
            simp
          rw [hfix]
        · have : L = n + 1 := by omega
          rw [this]

/-- A page state with one matching pagination button and limit 2. -/
def loadMoreState : ContentState :=
  ⟨⟨true, false, false, false, false, false, false, true, 2⟩, 0, false,
   ⟨[], [], [], [⟨" Load more...  ", 0⟩]⟩⟩

/-- Witness for C4: with limit 2 and an always-present matching
control, five re-invocations deliver exactly 2 clicks and the state is
fixed from the second trigger on. -/
theorem load_more_bounded_termination_witness :
    loadMoreState.settings.expansionLimit = ((2 : Nat) : Int)
    ∧ loadMoreState.expansionCount = 0
    ∧ hasMatchingLoadMore loadMoreState.page.loadMoreButtons = true
    ∧ (expandLoadMore^[5] loadMoreState).expansionCount = min 5 2
    ∧ expandLoadMore^[5] loadMoreState = expandLoadMore^[2] loadMoreState := by
  have hL : loadMoreState.settings.expansionLimit = ((2 : Nat) : Int) := rfl
  have h0 : loadMoreState.expansionCount = 0 := rfl
  have hm : hasMatchingLoadMore loadMoreState.page.loadMoreButtons = true := by decide
  exact ⟨hL, h0, hm,
    ((load_more_bounded_termination loadMoreState 2 hL h0 hm).2.1 5).1,
    (load_more_bounded_termination loadMoreState 2 hL h0 hm).2.2 5 (by omega)⟩

/-! ### Claim C5: single-shot environments expansion -/

/-- Clicks delivered to a container's toggle button. -/
def containerClicks (c : EnvContainer) : Nat :=
  match c.button with
  | some b => b.clicks
  | none => 0

/-- Clicks delivered to the toggle button of the `j`-th environments
container. -/
def envClicksAt (st : ContentState) (j : Nat) : Nat :=
  match st.page.envContainers[j]? with
  | some c => containerClicks c
  | none => 0

/-- Some container's processing fires a click in this invocation. -/
def envClicked (st : ContentState) : Bool :=
  (st.page.envContainers.map processEnvContainer).any (fun p => p.2)

theorem processEnvContainer_cases (c : EnvContainer) :
    ((processEnvContainer c).2 = false ∧ (processEnvContainer c).1 = c)
    ∨ ((processEnvContainer c).2 = true
        ∧ containerClicks (processEnvContainer c).1 = containerClicks c + 1) := by
  obtain ⟨bo⟩ := c
  cases bo with
  | none => left; exact ⟨rfl, rfl⟩
  | some b =>
      obtain ⟨ae, cst, ck⟩ := b
      cases ae
      · cases cst with
        | none => left; exact ⟨rfl, rfl⟩
        | some t =>
            by_cases hm : jsIncludes t "Show environments"
            · right
              refine ⟨?_, ?_⟩ <;> simp [processEnvContainer, hm, containerClicks]
            · left
              refine ⟨?_, ?_⟩ <;> simp [processEnvContainer, hm]
      · left; exact ⟨rfl, rfl⟩

theorem expandEnvironments_latch_noop (st : ContentState)
    (h : st.hasAutoExpandedEnvironments = true) :
    expandEnvironments st = st := by
  unfold expandEnvironments
  rw [if_pos h]

theorem expandEnvironments_eq_self (st : ContentState)
    (hnc : envClicked st = false) :
    expandEnvironments st = st := by
  unfold expandEnvironments
  split
  · rfl
  · have hall : ∀ c ∈ st.page.envContainers, (processEnvContainer c).2 = false := by
      intro c hc
      exact bool_eq_false (List.any_eq_false.mp (by exact hnc) (processEnvContainer c)
        (List.mem_map_of_mem _ hc))
    have hmap : (st.page.envContainers.map processEnvContainer).map (fun p => p.1)
        = st.page.envContainers := by
      rw [List.map_map]
      calc st.page.envContainers.map (fun c => (processEnvContainer c).1)
          = st.page.envContainers.map (fun c => c) := by
            apply List.map_congr_left
            intro c hc
            rcases processEnvContainer_cases c with ⟨_, h1⟩ | ⟨h2, _⟩
            · exact h1
            · rw [hall c hc] at h2; cases h2
        _ = st.page.envContainers := List.map_id' _
    have hany : (st.page.envContainers.map processEnvContainer).any (fun p => p.2)
        = false := hnc
    dsimp only
    rw [hmap, hany]
    simp

theorem expandEnvironments_containers (st : ContentState)
    (hl : st.hasAutoExpandedEnvironments = false) :
    (expandEnvironments st).page.envContainers
      = st.page.envContainers.map (fun c => (processEnvContainer c).1) := by
  unfold expandEnvironments
  rw [if_neg (by simp [hl])]
  simp [List.map_map]

theorem expandEnvironments_latch_eq (st : ContentState)
    (hl : st.hasAutoExpandedEnvironments = false) :
    (expandEnvironments st).hasAutoExpandedEnvironments = envClicked st := by
  unfold expandEnvironments
  rw [if_neg (by simp [hl])]
  simp [hl, envClicked]

/-- C5: the environments auto-expansion is a single-shot latch.  Once
`hasAutoExpandedEnvironments` is set, every invocation is a no-op on
the whole state; any invocation that changes anything sets the latch;
and across any number of re-invocations (the Mutation Watcher firing
repeatedly while the section stays collapsed) each toggle control
receives at most one click in total. -/
theorem env_expand_single_shot (st : ContentState) (n j : Nat) :
    (st.hasAutoExpandedEnvironments = true → expandEnvironments st = st)
    ∧ (expandEnvironments st ≠ st →
        (expandEnvironments st).hasAutoExpandedEnvironments = true)
    ∧ envClicksAt (expandEnvironments^[n] st) j ≤ envClicksAt st j + 1 := by
  refine ⟨expandEnvironments_latch_noop st, ?_, ?_⟩
  · intro hne
    by_cases hl : st.hasAutoExpandedEnvironments = true
    · exact absurd (expandEnvironments_latch_noop st hl) hne
    · by_cases hc : envClicked st = true
      · rw [expandEnvironments_latch_eq st (bool_eq_false hl)]
        exact hc
      · exact absurd (expandEnvironments_eq_self st (bool_eq_false hc)) hne
  · by_cases hl : st.hasAutoExpandedEnvironments = true
    · rw [Function.iterate_fixed (expandEnvironments_latch_noop st hl) n]
      exact Nat.le_succ_of_le (Nat.le_refl _)
    · by_cases hc : envClicked st = true
      · cases n with
        | zero => exact Nat.le_succ_of_le (Nat.le_refl _)
        | succ n =>
            rw [Function.iterate_succ_apply]
            have hlatch : (expandEnvironments st).hasAutoExpandedEnvironments = true := by
              rw [expandEnvironments_latch_eq st (bool_eq_false hl)]
              exact hc
            rw [Function.iterate_fixed (expandEnvironments_latch_noop _ hlatch) n]
            have hcont := expandEnvironments_containers st (bool_eq_false hl)
            unfold envClicksAt
            rw [hcont, List.getElem?_map]
            cases hj : st.page.envContainers[j]? with
            | none => simp
            | some c =>
                simp only [Option.map_some']
                rcases processEnvContainer_cases c with ⟨_, h1⟩ | ⟨_, h2⟩
                · rw [h1]; exact Nat.le_succ_of_le (Nat.le_refl _)
                · rw [h2]
      · rw [Function.iterate_fixed (expandEnvironments_eq_self st (bool_eq_false hc)) n]
        exact Nat.le_succ_of_le (Nat.le_refl _)

/-- A fresh page with one collapsed environments section whose toggle
matches `Show environments`. -/
def envState : ContentState :=
  ⟨⟨true, false, false, false, false, true, false, false, 2⟩, 0, false,
   ⟨[], [⟨some ⟨false, some "Show environments", 0⟩⟩], [], []⟩⟩

/-- Witness for C5: ten invocations while the section stays collapsed
deliver exactly one click to the toggle and leave the latch set. -/
theorem env_expand_single_shot_witness :
    envClicksAt (expandEnvironments^[10] envState) 0 ≤ envClicksAt envState 0 + 1
    ∧ envClicksAt (expandEnvironments^[10] envState) 0 = 1
    ∧ (expandEnvironments^[10] envState).hasAutoExpandedEnvironments = true :=
  ⟨(env_expand_single_shot envState 10 0).2.2, by decide, by decide⟩

/-! ### Claim C8: where the expansion-limit clamping lives -/

/-- A stored record carrying an out-of-range expansion limit (for
example written by an older version or another client of the store). -/
def malformedStored : PartialSettings :=
  ⟨none, none, none, none, none, none, none, none, some 500⟩

/-- A state whose snapshot carries the unclamped limit `500` with 99
triggers already spent and a matching control present. -/
def overLimitState : ContentState :=
  ⟨⟨true, false, false, false, false, false, false, true, 500⟩, 99, false,
   ⟨[], [], [], [⟨"Load more...", 0⟩]⟩⟩

/-- C8 counterexample: a malformed stored `expansionLimit` enters the
core snapshot unclamped — `loadSettings` merges `500` as-is, which is
outside `[1, 99]` — and the driver then honours the raw value: at 99
spent triggers it still clicks, reaching 100.  (The popup listener
would have clamped the same input to 99.) -/
theorem core_does_not_clamp_counterexample :
    (loadSettings malformedStored).expansionLimit = 500
    ∧ ¬ (1 ≤ (loadSettings malformedStored).expansionLimit
          ∧ (loadSettings malformedStored).expansionLimit ≤ 99)
    ∧ popupClampExpansionLimit (some 500) = 99
    ∧ (expandLoadMore overLimitState).expansionCount = 100 := by
  refine ⟨rfl, by decide, rfl, by decide⟩

/-- C8 (amended): the clamp to the nearest bound of `[1, 99]` is
applied only in the popup's `expansionLimit` change listener, before
the value is saved and broadcast: the clamped result is always in
range, in-range nonzero inputs pass through, and out-of-range inputs
go to the nearest bound.  The core itself (`loadSettings` and the
message merge) adopts whatever integer the store hands it, with no
validation. -/
theorem popup_clamps_expansion_limit (parsed : Option Int) :
    1 ≤ popupClampExpansionLimit parsed
    ∧ popupClampExpansionLimit parsed ≤ 99
    ∧ (∀ v : Int, parsed = some v → v ≠ 0 → 1 ≤ v → v ≤ 99 →
        popupClampExpansionLimit parsed = v)
    ∧ (∀ v : Int, parsed = some v → v < 1 → v ≠ 0 →
        popupClampExpansionLimit parsed = 1)
    ∧ (∀ v : Int, parsed = some v → 99 < v →
        popupClampExpansionLimit parsed = 99)
    ∧ (∀ p : PartialSettings, ∀ v : Int, p.expansionLimit = some v →
        (mergeSettings defaultSettings p).expansionLimit = v) := by
  refine ⟨?_, ?_, ?_, ?_, ?_, ?_⟩
  · cases parsed with
    | none => decide
    | some v =>
        unfold popupClampExpansionLimit
        by_cases hv : v = 0 <;> simp [hv]
  · cases parsed with
    | none => decide
    | some v =>
        unfold popupClampExpansionLimit
        by_cases hv : v = 0 <;> simp [hv]
  · rintro v rfl hv h1 h99
    unfold popupClampExpansionLimit
    simp [hv]
    omega
  · rintro v rfl hv h0
    unfold popupClampExpansionLimit
    simp [h0]
    omega
  · rintro v rfl hv
    unfold popupClampExpansionLimit
    by_cases h0 : v = 0
    · omega
    · simp [h0]
      omega
  · intro p v hp
    unfold mergeSettings
    simp [hp]

/-- Witness for C8's amended claim: `500` is clamped to `99` and `-5`
to `1` by the popup, while the core merge adopts `500` unchanged. -/
theorem popup_clamps_expansion_limit_witness :
    popupClampExpansionLimit (some 500) = 99
    ∧ popupClampExpansionLimit (some (-5)) = 1
    ∧ (mergeSettings defaultSettings malformedStored).expansionLimit = 500 :=
  ⟨(popup_clamps_expansion_limit (some 500)).2.2.2.2.1 500 rfl (by decide),
   (popup_clamps_expansion_limit (some (-5))).2.2.2.1 (-5) rfl (by decide) (by decide),
   (popup_clamps_expansion_limit (some 0)).2.2.2.2.2 malformedStored 500 rfl⟩

/-! ### Claim C9: category markers are not disjoint -/

/-- An entry carrying both the deployed-event `data-url` marker and a
destroyed status label. -/
def dualNode : Node :=
  ⟨0, ⟨true, [destroyedTitle], none⟩, clearMarks⟩

/-- A state hiding successful and destroyed deployments over the
double-marked entry. -/
def dualState : ContentState :=
  ⟨⟨true, true, false, true, false, false, false, false, 2⟩, 0, false,
   ⟨[dualNode], [], [], []⟩⟩

/-- C9 counterexample: the structural markers are not disjoint — an
element can carry the deployed-event `data-url` and contain a
destroyed status label at once, in which case one reconciliation pass
marks it both `Successful` and `Destroyed` (both hide classes end up
on the same entry). -/
theorem classification_overlap_counterexample :
    classifiedSuccessful dualNode = true
    ∧ classifiedDestroyed dualNode = true
    ∧ clsSuccessfulAt (applySettings dualState).page.doc 0 = true
    ∧ clsDestroyedAt (applySettings dualState).page.doc 0 = true := by
  refine ⟨rfl, by decide, by decide, by decide⟩

/-- C9 (amended): `Destroyed` and `Failed` are decided by distinct
`title` strings, so an entry carrying at most one status label never
matches both; but `Successful/OldSuccessful` is decided by an
independent attribute (`data-url`), and nothing in the code prevents
an entry from being classified `Successful` and `Destroyed`/`Failed`
at the same time. -/
theorem destroyed_failed_exclusive (n : Node)
    (h : n.attrs.labelTitles.length ≤ 1) :
    ¬ (classifiedDestroyed n = true ∧ classifiedFailed n = true) := by
  rintro ⟨hd, hf⟩
  unfold classifiedDestroyed at hd
  unfold classifiedFailed at hf
  rw [List.elem_iff] at hd hf
  cases htl : n.attrs.labelTitles with
  | nil => rw [htl] at hd; cases hd
  | cons t rest =>
      rw [htl] at hd hf h
      have hrest : rest = [] := by
        cases rest with
        | nil => rfl
        | cons a b => simp at h
      subst hrest
      have h1 : destroyedTitle = t := by simpa using hd
      have h2 : failedTitle = t := by simpa using hf
      have hne : destroyedTitle ≠ failedTitle := by decide
      exact hne (h1.trans h2.symm)

/-- A timeline entry with a single destroyed status label. -/
def singleLabelNode : Node :=
  ⟨1, ⟨false, [destroyedTitle], none⟩, clearMarks⟩

/-- Witness for C9's amended claim at a single-label entry. -/
theorem destroyed_failed_exclusive_witness :
    singleLabelNode.attrs.labelTitles.length ≤ 1
    ∧ ¬ (classifiedDestroyed singleLabelNode = true
          ∧ classifiedFailed singleLabelNode = true) :=
  ⟨by decide, destroyed_failed_exclusive singleLabelNode (by decide)⟩

/-! ### Normal form of the enabled reconciliation pipeline -/

/-- Node-level effect of the destroyed-deployments part. -/
def destroyedNodeOp (s : Settings) (n : Node) : Node :=
  if s.hideDestroyedDeployments then markNodeDestroyed n else clearNodeDestroyed n

/-- Node-level effect of the failed-deployments part. -/
def failedNodeOp (s : Settings) (n : Node) : Node :=
  if s.hideFailedDeployments then markNodeFailed n else clearNodeFailed n

theorem destroyedDocOp_eq (s : Settings) (doc : List Node) :
    destroyedDocOp s doc = doc.map (destroyedNodeOp s) := by
  unfold destroyedDocOp destroyedNodeOp hideDestroyedDeployments showDestroyedDeployments
  split_ifs <;> rfl

theorem failedDocOp_eq (s : Settings) (doc : List Node) :
    failedDocOp s doc = doc.map (failedNodeOp s) := by
  unfold failedDocOp failedNodeOp hideFailedDeployments showFailedDeployments
  split_ifs <;> rfl

theorem destroyedNodeOp_clsSuccessful (s : Settings) (n : Node) :
    (destroyedNodeOp s n).marks.clsSuccessful = n.marks.clsSuccessful := by
  unfold destroyedNodeOp markNodeDestroyed clearNodeDestroyed
  split_ifs <;> rfl

theorem destroyedNodeOp_clsOld (s : Settings) (n : Node) :
    (destroyedNodeOp s n).marks.clsOld = n.marks.clsOld := by
  unfold destroyedNodeOp markNodeDestroyed clearNodeDestroyed
  split_ifs <;> rfl

theorem destroyedNodeOp_attrs (s : Settings) (n : Node) :
    (destroyedNodeOp s n).attrs = n.attrs := by
  unfold destroyedNodeOp
  split_ifs
  · exact markNodeDestroyed_attrs n
  · rfl

theorem destroyedNodeOp_id (s : Settings) (n : Node) :
    (destroyedNodeOp s n).id = n.id := by
  unfold destroyedNodeOp
  split_ifs
  · exact markNodeDestroyed_id n
  · rfl

theorem failedNodeOp_clsSuccessful (s : Settings) (n : Node) :
    (failedNodeOp s n).marks.clsSuccessful = n.marks.clsSuccessful := by
  unfold failedNodeOp markNodeFailed clearNodeFailed
  split_ifs <;> rfl

theorem failedNodeOp_clsOld (s : Settings) (n : Node) :
    (failedNodeOp s n).marks.clsOld = n.marks.clsOld := by
  unfold failedNodeOp markNodeFailed clearNodeFailed
  split_ifs <;> rfl

theorem failedNodeOp_attrs (s : Settings) (n : Node) :
    (failedNodeOp s n).attrs = n.attrs := by
  unfold failedNodeOp
  split_ifs
  · exact markNodeFailed_attrs n
  · rfl

theorem failedNodeOp_id (s : Settings) (n : Node) :
    (failedNodeOp s n).id = n.id := by
  unfold failedNodeOp
  split_ifs
  · exact markNodeFailed_id n
  · rfl

theorem markNodeSuccessful_cls (n : Node) :
    (markNodeSuccessful n).marks.clsSuccessful
      = (n.marks.clsSuccessful || classifiedSuccessful n) := by
  unfold markNodeSuccessful
  split_ifs with h
  · simp [h]
  · simp [bool_eq_false h]

theorem markNodeSuccessful_clsOld (n : Node) :
    (markNodeSuccessful n).marks.clsOld = n.marks.clsOld := by
  unfold markNodeSuccessful
  split_ifs <;> rfl

theorem applyOldMark_clsOld (ids : List Nat) (n : Node) :
    (applyOldMark ids n).marks.clsOld = (n.marks.clsOld || ids.contains n.id) := by
  unfold applyOldMark markNodeOld
  split_ifs with h
  · rw [h, Bool.or_true]
  · rw [bool_eq_false h, Bool.or_false]

theorem applyOldMark_clsSuccessful (ids : List Nat) (n : Node) :
    (applyOldMark ids n).marks.clsSuccessful = n.marks.clsSuccessful := by
  unfold applyOldMark markNodeOld
  split_ifs <;> rfl

theorem reconcileDoc_hideSucc (s : Settings) (doc : List Node)
    (hS : s.hideSuccessfulDeployments = true) :
    reconcileDoc s doc = doc.map (fun n =>
      failedNodeOp s (destroyedNodeOp s (markNodeSuccessful n))) := by
  unfold reconcileDoc succDocOp
  rw [if_pos hS, destroyedDocOp_eq, failedDocOp_eq]
  unfold hideSuccessfulDeployments
  rw [List.map_map, List.map_map]
  rfl

theorem reconcileDoc_hideOld (s : Settings) (doc : List Node)
    (hS : s.hideSuccessfulDeployments = false)
    (hO : s.hideOldSuccessfulDeployments = true) :
    reconcileDoc s doc = doc.map (fun n =>
      failedNodeOp s (destroyedNodeOp s
        (applyOldMark (oldIds doc) (clearNodeSuccessful n)))) := by
  unfold reconcileDoc succDocOp
  rw [if_neg (by simp [hS])]
  dsimp only
  rw [if_pos hO, hideOld_eq, destroyedDocOp_eq, failedDocOp_eq]
  have hids : oldIds (showSuccessfulDeployments doc) = oldIds doc :=
    oldIds_map doc clearNodeSuccessful clearNodeSuccessful_attrs clearNodeSuccessful_id
  rw [hids]
  unfold showSuccessfulDeployments
  rw [List.map_map, List.map_map, List.map_map]
  rfl

theorem reconcileDoc_showAll (s : Settings) (doc : List Node)
    (hS : s.hideSuccessfulDeployments = false)
    (hO : s.hideOldSuccessfulDeployments = false) :
    reconcileDoc s doc = doc.map (fun n =>
      failedNodeOp s (destroyedNodeOp s (clearNodeOld (clearNodeSuccessful n)))) := by
  unfold reconcileDoc succDocOp
  rw [if_neg (by simp [hS])]
  dsimp only
  rw [if_neg (by simp [hO]), destroyedDocOp_eq, failedDocOp_eq]
  unfold showOldDeployments showSuccessfulDeployments
  rw [List.map_map, List.map_map, List.map_map]
  rfl

/-- The timeline component of an enabled `applySettings` pass. -/
theorem applySettings_doc (st : ContentState) (hEn : st.settings.enabled = true) :
    (applySettings st).page.doc = reconcileDoc st.settings st.page.doc := by
  unfold applySettings
  rw [if_neg (by simp [hEn])]
  dsimp only
  by_cases h2 : st.settings.autoExpandEnvironments <;>
    by_cases h3 : st.settings.environmentsFullHeight <;>
      simp [h2, h3, docUpdate, expandEnvironments_doc,
        setEnvironmentsFullHeight, resetEnvironmentsHeight]

theorem envClicked_congr (x y : ContentState)
    (h : x.page.envContainers = y.page.envContainers) :
    envClicked x = envClicked y := by
  unfold envClicked
  rw [h]

theorem expandEnvironments_latch_or (x : ContentState) :
    (expandEnvironments x).hasAutoExpandedEnvironments
      = (x.hasAutoExpandedEnvironments || envClicked x) := by
  unfold expandEnvironments
  split
  · next h => simp [h]
  · rfl

theorem expandEnvironments_env_or (x : ContentState) :
    (expandEnvironments x).page.envContainers
      = if x.hasAutoExpandedEnvironments then x.page.envContainers
        else x.page.envContainers.map (fun c => (processEnvContainer c).1) := by
  unfold expandEnvironments
  split
  · rfl
  · dsimp only
    simp [List.map_map]

theorem setFullHeight_latch (x : ContentState) :
    (setEnvironmentsFullHeight x).hasAutoExpandedEnvironments
      = x.hasAutoExpandedEnvironments := rfl

theorem resetHeight_latch (x : ContentState) :
    (resetEnvironmentsHeight x).hasAutoExpandedEnvironments
      = x.hasAutoExpandedEnvironments := rfl

theorem setFullHeight_env (x : ContentState) :
    (setEnvironmentsFullHeight x).page.envContainers
      = x.page.envContainers := rfl

theorem resetHeight_env (x : ContentState) :
    (resetEnvironmentsHeight x).page.envContainers
      = x.page.envContainers := rfl

/-- The latch component of an enabled `applySettings` pass. -/
theorem applySettings_latch (st : ContentState) (hEn : st.settings.enabled = true) :
    (applySettings st).hasAutoExpandedEnvironments
      = if st.settings.autoExpandEnvironments then
          (st.hasAutoExpandedEnvironments || envClicked st)
        else st.hasAutoExpandedEnvironments := by
  unfold applySettings
  rw [if_neg (by simp [hEn])]
  dsimp only
  by_cases h2 : st.settings.autoExpandEnvironments = true
  · rw [if_pos h2, if_pos h2]
    by_cases h3 : st.settings.environmentsFullHeight = true
    · rw [if_pos h3, setFullHeight_latch, expandEnvironments_latch_or]
      rfl
    · rw [if_neg h3, resetHeight_latch, expandEnvironments_latch_or]
      rfl
  · rw [if_neg h2, if_neg h2]
    by_cases h3 : st.settings.environmentsFullHeight = true
    · rw [if_pos h3, setFullHeight_latch]
      rfl
    · rw [if_neg h3, resetHeight_latch]
      rfl

/-- The environments-containers component of an enabled `applySettings`
pass. -/
theorem applySettings_env (st : ContentState) (hEn : st.settings.enabled = true) :
    (applySettings st).page.envContainers
      = if st.settings.autoExpandEnvironments then
          (if st.hasAutoExpandedEnvironments then st.page.envContainers
           else st.page.envContainers.map (fun c => (processEnvContainer c).1))
        else st.page.envContainers := by
  unfold applySettings
  rw [if_neg (by simp [hEn])]
  dsimp only
  by_cases h2 : st.settings.autoExpandEnvironments = true
  · rw [if_pos h2, if_pos h2]
    by_cases h3 : st.settings.environmentsFullHeight = true
    · rw [if_pos h3, setFullHeight_env, expandEnvironments_env_or]
      rfl
    · rw [if_neg h3, resetHeight_env, expandEnvironments_env_or]
      rfl
  · rw [if_neg h2, if_neg h2]
    by_cases h3 : st.settings.environmentsFullHeight = true
    · rw [if_pos h3, setFullHeight_env]
      rfl
    · rw [if_neg h3, resetHeight_env]
      rfl

/-- The height component of an enabled `applySettings` pass. -/
theorem applySettings_status (st : ContentState) (hEn : st.settings.enabled = true) :
    (applySettings st).page.statusLists
      = if st.settings.environmentsFullHeight then
          st.page.statusLists.map (fun _ => ⟨"none"⟩)
        else st.page.statusLists.map (fun _ => ⟨""⟩) := by
  unfold applySettings
  rw [if_neg (by simp [hEn])]
  dsimp only
  by_cases h2 : st.settings.autoExpandEnvironments <;>
    by_cases h3 : st.settings.environmentsFullHeight <;>
      simp [h2, h3, docUpdate, setEnvironmentsFullHeight, resetEnvironmentsHeight,
        expandEnvironments_statusLists]

theorem pageState_eq (p q : PageState) (h1 : p.doc = q.doc)
    (h2 : p.envContainers = q.envContainers) (h3 : p.statusLists = q.statusLists)
    (h4 : p.loadMoreButtons = q.loadMoreButtons) : p = q := by
  cases p
  cases q
  simp only at h1 h2 h3 h4
  rw [h1, h2, h3, h4]

theorem contentState_eq (x y : ContentState) (h1 : x.settings = y.settings)
    (h2 : x.expansionCount = y.expansionCount)
    (h3 : x.hasAutoExpandedEnvironments = y.hasAutoExpandedEnvironments)
    (h4 : x.page = y.page) : x = y := by
  cases x
  cases y
  simp only at h1 h2 h3 h4
  rw [h1, h2, h3, h4]

/-! ### Claim C2: precedence of the successful-deployment rules -/

/-- The entry at position `i` is a deployed-event container. -/
def deployedAt (doc : List Node) (i : Nat) : Bool :=
  match doc[i]? with
  | some n => classifiedSuccessful n
  | none => false

/-- The same state with only the `hideOldSuccessfulDeployments` flag
replaced. -/
def withHideOldFlag (st : ContentState) (b : Bool) : ContentState :=
  { st with settings := { st.settings with hideOldSuccessfulDeployments := b } }

theorem clsSuccessfulAt_map (doc : List Node) (f : Node → Node) (i : Nat) :
    clsSuccessfulAt (doc.map f) i
      = (match doc[i]? with
         | some n => (f n).marks.clsSuccessful
         | none => false) := by
  unfold clsSuccessfulAt
  rw [List.getElem?_map]
  cases doc[i]? <;> rfl

theorem clsOldAt_map (doc : List Node) (f : Node → Node) (i : Nat) :
    clsOldAt (doc.map f) i
      = (match doc[i]? with
         | some n => (f n).marks.clsOld
         | none => false) := by
  unfold clsOldAt
  rw [List.getElem?_map]
  cases doc[i]? <;> rfl

theorem reconcileDoc_hideOld_irrel (s : Settings) (b : Bool) (doc : List Node)
    (hS : s.hideSuccessfulDeployments = true) :
    reconcileDoc { s with hideOldSuccessfulDeployments := b } doc
      = reconcileDoc s doc := by
  rw [reconcileDoc_hideSucc { s with hideOldSuccessfulDeployments := b } doc hS,
    reconcileDoc_hideSucc s doc hS]
  rfl

/-- C2: among the successful-deployment rules, hide-all takes
precedence.  With `enabled = true`:
(1) `hideSuccessfulDeployments = true` hides every deployed-event
entry, leaves the old-deployment class of every entry untouched, and
produces the same page, counter and latch whatever the value of
`hideOldSuccessfulDeployments` (the flag is not evaluated);
(2) with hide-all off and hide-old on, the successful class is cleared
everywhere, the old class of an entry becomes its previous value or-ed
with the grouping pass's mark, and — on a well-formed document with no
stale old-marks — an entry ends up hidden exactly when it is a
deployed-event entry that is not the most recent of its environment;
(3) with both flags off, every entry's successful and old classes are
cleared. -/
theorem successful_hiding_precedence (st : ContentState)
    (hEn : st.settings.enabled = true) :
    (st.settings.hideSuccessfulDeployments = true →
      (∀ i, deployedAt st.page.doc i = true →
          clsSuccessfulAt (applySettings st).page.doc i = true)
      ∧ (∀ i, clsOldAt (applySettings st).page.doc i = clsOldAt st.page.doc i)
      ∧ (∀ b, (applySettings (withHideOldFlag st b)).page = (applySettings st).page
          ∧ (applySettings (withHideOldFlag st b)).expansionCount
              = (applySettings st).expansionCount
          ∧ (applySettings (withHideOldFlag st b)).hasAutoExpandedEnvironments
              = (applySettings st).hasAutoExpandedEnvironments))
    ∧ (st.settings.hideSuccessfulDeployments = false →
        st.settings.hideOldSuccessfulDeployments = true →
      (∀ i, clsSuccessfulAt (applySettings st).page.doc i = false)
      ∧ (∀ i n, st.page.doc[i]? = some n →
          clsOldAt (applySettings st).page.doc i
            = (n.marks.clsOld || (oldIds st.page.doc).contains n.id))
      ∧ (docWF st.page.doc → (∀ j, clsOldAt st.page.doc j = false) →
          ∀ i n, st.page.doc[i]? = some n →
            (clsOldAt (applySettings st).page.doc i = true ↔
              (classifiedSuccessful n = true
                ∧ ¬ isMostRecentForEnv st.page.doc n))))
    ∧ (st.settings.hideSuccessfulDeployments = false →
        st.settings.hideOldSuccessfulDeployments = false →
      ∀ i, clsSuccessfulAt (applySettings st).page.doc i = false
        ∧ clsOldAt (applySettings st).page.doc i = false) := by
  refine ⟨?_, ?_, ?_⟩
  · intro hS
    refine ⟨?_, ?_, ?_⟩
    · intro i hd
      rw [applySettings_doc st hEn, reconcileDoc_hideSucc _ _ hS,
        clsSuccessfulAt_map]
      unfold deployedAt at hd
      cases hi : st.page.doc[i]? with
      | none => rw [hi] at hd; cases hd
      | some n =>
          rw [hi] at hd
          dsimp only at hd ⊢
          rw [failedNodeOp_clsSuccessful, destroyedNodeOp_clsSuccessful,
            markNodeSuccessful_cls, hd, Bool.or_true]
    · intro i
      rw [applySettings_doc st hEn, reconcileDoc_hideSucc _ _ hS, clsOldAt_map]
      unfold clsOldAt
      cases hi : st.page.doc[i]? with
      | none => rfl
      | some n =>
          dsimp only
          rw [failedNodeOp_clsOld, destroyedNodeOp_clsOld, markNodeSuccessful_clsOld]
    · intro b
      have hEn' : (withHideOldFlag st b).settings.enabled = true := hEn
      have hS' : (withHideOldFlag st b).settings.hideSuccessfulDeployments = true := hS
      refine ⟨?_, ?_, ?_⟩
      · apply pageState_eq
        · rw [applySettings_doc _ hEn', applySettings_doc st hEn]
          exact reconcileDoc_hideOld_irrel st.settings b st.page.doc hS
        · rw [applySettings_env _ hEn', applySettings_env st hEn]
          rfl
        · rw [applySettings_status _ hEn', applySettings_status st hEn]
          rfl
        · rw [applySettings_loadMoreButtons, applySettings_loadMoreButtons]
          rfl
      · rw [applySettings_expansionCount, applySettings_expansionCount]
        rfl
      · rw [applySettings_latch _ hEn', applySettings_latch st hEn]
        rfl
  · intro hS hO
    have hdoc : (applySettings st).page.doc
        = st.page.doc.map (fun n =>
            failedNodeOp st.settings (destroyedNodeOp st.settings
              (applyOldMark (oldIds st.page.doc) (clearNodeSuccessful n)))) := by
      rw [applySettings_doc st hEn, reconcileDoc_hideOld _ _ hS hO]
    refine ⟨?_, ?_, ?_⟩
    · intro i
      rw [hdoc, clsSuccessfulAt_map]
      cases hi : st.page.doc[i]? with
      | none => rfl
      | some n =>
          dsimp only
          rw [failedNodeOp_clsSuccessful, destroyedNodeOp_clsSuccessful,
            applyOldMark_clsSuccessful]
          rfl
    · intro i n hi
      rw [hdoc, clsOldAt_map, hi]
      dsimp only
      rw [failedNodeOp_clsOld, destroyedNodeOp_clsOld, applyOldMark_clsOld]
      rfl
    · intro hwf hclean i n hi
      have hclsOld : clsOldAt (applySettings st).page.doc i
          = (oldIds st.page.doc).contains n.id := by
        rw [hdoc, clsOldAt_map, hi]
        dsimp only
        rw [failedNodeOp_clsOld, destroyedNodeOp_clsOld, applyOldMark_clsOld]
        have hn0 : n.marks.clsOld = false := by
          have hcl := hclean i
          unfold clsOldAt at hcl
          rw [hi] at hcl
          dsimp only at hcl
          exact hcl
        show ((clearNodeSuccessful n).marks.clsOld
            || (oldIds st.page.doc).contains (clearNodeSuccessful n).id)
          = (oldIds st.page.doc).contains n.id
        rw [show (clearNodeSuccessful n).marks.clsOld = n.marks.clsOld from rfl, hn0]
        rw [Bool.false_or]
        rfl
      rw [hclsOld]
      have hmem : n ∈ st.page.doc := List.getElem?_mem hi
      rw [oldIds_contains_iff st.page.doc hwf n hmem, mem_oldNodes_iff]
      constructor
      · intro hdl
        have hG : n ∈ envGroup st.page.doc (envKey n.attrs) :=
          List.Sublist.subset (List.dropLast_sublist _) hdl
        have hcls : classifiedSuccessful n = true :=
          (mem_envGroup_iff_of_mem_doc hmem).mp hG
        refine ⟨hcls, ?_⟩
        intro hmr
        have hne : envGroup st.page.doc (envKey n.attrs) ≠ [] :=
          List.ne_nil_of_mem hG
        have hlast : (envGroup st.page.doc (envKey n.attrs)).getLast?
            = some ((envGroup st.page.doc (envKey n.attrs)).getLast hne) :=
          List.getLast?_eq_getLast _ hne
        unfold isMostRecentForEnv at hmr
        rw [hlast] at hmr
        have hn_eq : n = (envGroup st.page.doc (envKey n.attrs)).getLast hne :=
          (Option.some.injEq .. ▸ hmr : _ = n).symm
        exact (mem_dropLast_iff _ (envGroup_nodup hwf _) hne n hG).mp hdl hn_eq
      · rintro ⟨hcls, hmr⟩
        have hG : n ∈ envGroup st.page.doc (envKey n.attrs) :=
          (mem_envGroup_iff_of_mem_doc hmem).mpr hcls
        have hne : envGroup st.page.doc (envKey n.attrs) ≠ [] :=
          List.ne_nil_of_mem hG
        apply (mem_dropLast_iff _ (envGroup_nodup hwf _) hne n hG).mpr
        intro heq
        apply hmr
        unfold isMostRecentForEnv
        rw [List.getLast?_eq_getLast _ hne, ← heq]
  · intro hS hO
    have hdoc : (applySettings st).page.doc
        = st.page.doc.map (fun n =>
            failedNodeOp st.settings (destroyedNodeOp st.settings
              (clearNodeOld (clearNodeSuccessful n)))) := by
      rw [applySettings_doc st hEn, reconcileDoc_showAll _ _ hS hO]
    intro i
    constructor
    · rw [hdoc, clsSuccessfulAt_map]
      cases hi : st.page.doc[i]? with
      | none => rfl
      | some n =>
          dsimp only
          rw [failedNodeOp_clsSuccessful, destroyedNodeOp_clsSuccessful]
          rfl
    · rw [hdoc, clsOldAt_map]
      cases hi : st.page.doc[i]? with
      | none => rfl
      | some n =>
          dsimp only
          rw [failedNodeOp_clsOld, destroyedNodeOp_clsOld]
          rfl

/-- The scenario state with hide-all off and hide-old on. -/
def c2StateOld : ContentState :=
  ⟨⟨true, false, true, false, false, false, false, false, 2⟩, 0, false,
   ⟨scenarioDoc, [], [], []⟩⟩

/-- The scenario state with hide-all on. -/
def c2StateHide : ContentState :=
  ⟨⟨true, true, true, false, false, false, false, false, 2⟩, 0, false,
   ⟨scenarioDoc, [], [], []⟩⟩

/-- Witness for C2 at the specification's scenario document: with
hide-all on the first entry is hidden as successful; with hide-old on
instead, its successful class is clear, the old staging entries are
hidden and the most recent staging entry stays visible. -/
theorem successful_hiding_precedence_witness :
    c2StateOld.settings.enabled = true
    ∧ clsSuccessfulAt (applySettings c2StateOld).page.doc 0 = false
    ∧ clsOldAt (applySettings c2StateOld).page.doc 0 = true
    ∧ clsOldAt (applySettings c2StateOld).page.doc 3 = false
    ∧ clsSuccessfulAt (applySettings c2StateHide).page.doc 0 = true := by
  refine ⟨rfl, ?_, by decide, by decide, ?_⟩
  · exact ((successful_hiding_precedence c2StateOld rfl).2.1 rfl rfl).1 0
  · exact ((successful_hiding_precedence c2StateHide rfl).1 rfl).1 0 (by decide)

/-! ### Claim C6: idempotence of reconciliation -/

theorem hideSucc_node_idem (s : Settings) (n : Node) :
    failedNodeOp s (destroyedNodeOp s (markNodeSuccessful
      (failedNodeOp s (destroyedNodeOp s (markNodeSuccessful n)))))
    = failedNodeOp s (destroyedNodeOp s (markNodeSuccessful n)) := by
  obtain ⟨i, a, m⟩ := n
  obtain ⟨c1, c2, c3, c4, d1, d2, d3⟩ := m
  by_cases h1 : a.deployedEventUrl = true <;>
    by_cases h2 : s.hideDestroyedDeployments = true <;>
      by_cases h3 : s.hideFailedDeployments = true <;>
        by_cases h4 : destroyedTitle ∈ a.labelTitles <;>
          by_cases h5 : failedTitle ∈ a.labelTitles <;>
            simp [failedNodeOp, destroyedNodeOp, markNodeSuccessful,
              markNodeDestroyed, markNodeFailed, clearNodeDestroyed,
              clearNodeFailed, classifiedSuccessful, classifiedDestroyed,
              classifiedFailed, h1, h2, h3, h4, h5]

theorem hideOld_node_idem (s : Settings) (ids : List Nat) (n : Node) :
    failedNodeOp s (destroyedNodeOp s (applyOldMark ids (clearNodeSuccessful
      (failedNodeOp s (destroyedNodeOp s (applyOldMark ids (clearNodeSuccessful n)))))))
    = failedNodeOp s (destroyedNodeOp s (applyOldMark ids (clearNodeSuccessful n))) := by
  obtain ⟨i, a, m⟩ := n
  obtain ⟨c1, c2, c3, c4, d1, d2, d3⟩ := m
  by_cases h0 : i ∈ ids <;>
    by_cases h2 : s.hideDestroyedDeployments = true <;>
      by_cases h3 : s.hideFailedDeployments = true <;>
        by_cases h4 : destroyedTitle ∈ a.labelTitles <;>
          by_cases h5 : failedTitle ∈ a.labelTitles <;>
            simp [failedNodeOp, destroyedNodeOp, applyOldMark, markNodeOld,
              clearNodeSuccessful, markNodeDestroyed, markNodeFailed,
              clearNodeDestroyed, clearNodeFailed, classifiedDestroyed,
              classifiedFailed, h0, h2, h3, h4, h5]

theorem showAll_node_idem (s : Settings) (n : Node) :
    failedNodeOp s (destroyedNodeOp s (clearNodeOld (clearNodeSuccessful
      (failedNodeOp s (destroyedNodeOp s (clearNodeOld (clearNodeSuccessful n)))))))
    = failedNodeOp s (destroyedNodeOp s (clearNodeOld (clearNodeSuccessful n))) := by
  obtain ⟨i, a, m⟩ := n
  obtain ⟨c1, c2, c3, c4, d1, d2, d3⟩ := m
  by_cases h2 : s.hideDestroyedDeployments = true <;>
    by_cases h3 : s.hideFailedDeployments = true <;>
      by_cases h4 : destroyedTitle ∈ a.labelTitles <;>
        by_cases h5 : failedTitle ∈ a.labelTitles <;>
          simp [failedNodeOp, destroyedNodeOp, clearNodeOld, clearNodeSuccessful,
            markNodeDestroyed, markNodeFailed, clearNodeDestroyed,
            clearNodeFailed, classifiedDestroyed, classifiedFailed,
            h2, h3, h4, h5]

theorem reconcileDoc_idem (s : Settings) (doc : List Node) :
    reconcileDoc s (reconcileDoc s doc) = reconcileDoc s doc := by
  by_cases hS : s.hideSuccessfulDeployments = true
  · rw [reconcileDoc_hideSucc s _ hS, reconcileDoc_hideSucc s doc hS, List.map_map]
    exact List.map_congr_left (fun n _ => hideSucc_node_idem s n)
  · have hS' : s.hideSuccessfulDeployments = false := bool_eq_false hS
    by_cases hO : s.hideOldSuccessfulDeployments = true
    · rw [reconcileDoc_hideOld s doc hS' hO]
      rw [reconcileDoc_hideOld s _ hS' hO]
      have hids : oldIds (doc.map (fun n =>
          failedNodeOp s (destroyedNodeOp s
            (applyOldMark (oldIds doc) (clearNodeSuccessful n))))) = oldIds doc := by
        apply oldIds_map
        · intro n
          rw [failedNodeOp_attrs, destroyedNodeOp_attrs, applyOldMark_attrs,
            clearNodeSuccessful_attrs]
        · intro n
          rw [failedNodeOp_id, destroyedNodeOp_id, applyOldMark_id,
            clearNodeSuccessful_id]
      rw [hids, List.map_map]
      exact List.map_congr_left (fun n _ => hideOld_node_idem s (oldIds doc) n)
    · have hO' : s.hideOldSuccessfulDeployments = false := bool_eq_false hO
      rw [reconcileDoc_showAll s doc hS' hO']
      rw [reconcileDoc_showAll s _ hS' hO', List.map_map]
      exact List.map_congr_left (fun n _ => showAll_node_idem s n)

theorem revealAll_node_idem (n : Node) :
    clearNodeFailed (clearNodeDestroyed (clearNodeOld (clearNodeSuccessful
      (clearNodeFailed (clearNodeDestroyed (clearNodeOld (clearNodeSuccessful n)))))))
    = clearNodeFailed (clearNodeDestroyed (clearNodeOld (clearNodeSuccessful n))) := by
  obtain ⟨i, a, m⟩ := n
  obtain ⟨c1, c2, c3, c4, d1, d2, d3⟩ := m
  rfl

theorem revealAllDoc_idem (doc : List Node) :
    revealAllDoc (revealAllDoc doc) = revealAllDoc doc := by
  rw [revealAllDoc_eq doc, revealAllDoc_eq, List.map_map]
  exact List.map_congr_left (fun n _ => revealAll_node_idem n)

theorem env_noclick_map (env : List EnvContainer)
    (h : (env.map processEnvContainer).any (fun p => p.2) = false) :
    env.map (fun c => (processEnvContainer c).1) = env := by
  calc env.map (fun c => (processEnvContainer c).1)
      = env.map (fun c => c) := by
        apply List.map_congr_left
        intro c hc
        rcases processEnvContainer_cases c with ⟨_, h1⟩ | ⟨h2, _⟩
        · exact h1
        · have hf := bool_eq_false (List.any_eq_false.mp h (processEnvContainer c)
            (List.mem_map_of_mem _ hc))
          rw [hf] at h2
          cases h2
    _ = env := List.map_id' _

/-- C6: a second `applySettings` pass on an unchanged document with
unchanged settings is invisible — the whole resulting state (marker
classes and visibility of every entry included) equals that of a
single pass.  Hiding an already-hidden entry and revealing an
already-visible entry are no-ops. -/
theorem reconciliation_idempotent (st : ContentState) :
    applySettings (applySettings st) = applySettings st := by
  by_cases hEn : st.settings.enabled = true
  · have hset : (applySettings st).settings = st.settings := applySettings_settings st
    have hEn' : (applySettings st).settings.enabled = true := by rw [hset]; exact hEn
    apply contentState_eq
    · rw [applySettings_settings, applySettings_settings]
    · rw [applySettings_expansionCount, applySettings_expansionCount]
    · rw [applySettings_latch _ hEn', hset]
      by_cases h2 : st.settings.autoExpandEnvironments = true
      · rw [if_pos h2]
        cases hl : st.hasAutoExpandedEnvironments with
        | true =>
            have hLT : (applySettings st).hasAutoExpandedEnvironments = true := by
              rw [applySettings_latch st hEn, if_pos h2, hl]
              simp
            rw [hLT]
            simp
        | false =>
            cases hc : envClicked st with
            | true =>
                have hLT : (applySettings st).hasAutoExpandedEnvironments = true := by
                  rw [applySettings_latch st hEn, if_pos h2, hl, hc]
                  simp
                rw [hLT]
                simp
            | false =>
                have hLF : (applySettings st).hasAutoExpandedEnvironments = false := by
                  rw [applySettings_latch st hEn, if_pos h2, hl, hc]
                  simp
                rw [hLF]
                simp only [Bool.false_or]
                have henv : (applySettings st).page.envContainers
                    = st.page.envContainers := by
                  rw [applySettings_env st hEn, if_pos h2, hl, if_neg (by simp)]
                  exact env_noclick_map _ hc
                rw [envClicked_congr _ st henv, hc]
      · rw [if_neg h2]
    · apply pageState_eq
      · rw [applySettings_doc _ hEn', applySettings_doc st hEn, hset]
        exact reconcileDoc_idem st.settings st.page.doc
      · rw [applySettings_env _ hEn', hset]
        by_cases h2 : st.settings.autoExpandEnvironments = true
        · rw [if_pos h2]
          cases hl : st.hasAutoExpandedEnvironments with
          | true =>
              have hLT : (applySettings st).hasAutoExpandedEnvironments = true := by
                rw [applySettings_latch st hEn, if_pos h2, hl]
                simp
              rw [hLT, if_pos rfl]
          | false =>
              cases hc : envClicked st with
              | true =>
                  have hLT : (applySettings st).hasAutoExpandedEnvironments = true := by
                    rw [applySettings_latch st hEn, if_pos h2, hl, hc]
                    simp
                  rw [hLT, if_pos rfl]
              | false =>
                  have hLF : (applySettings st).hasAutoExpandedEnvironments = false := by
                    rw [applySettings_latch st hEn, if_pos h2, hl, hc]
                    simp
                  rw [hLF, if_neg (by simp)]
                  have henv : (applySettings st).page.envContainers
                      = st.page.envContainers := by
                    rw [applySettings_env st hEn, if_pos h2, hl, if_neg (by simp)]
                    exact env_noclick_map _ hc
                  rw [henv]
                  exact env_noclick_map _ hc
        · rw [if_neg h2]
      · rw [applySettings_status _ hEn', hset]
        by_cases h3 : st.settings.environmentsFullHeight = true
        · rw [if_pos h3, applySettings_status st hEn, if_pos h3, List.map_map]
          rfl
        · rw [if_neg h3, applySettings_status st hEn, if_neg h3, List.map_map]
          rfl
      · rw [applySettings_loadMoreButtons]
  · have hdis : st.settings.enabled = false := bool_eq_false hEn
    have hgen : ∀ y : ContentState, y.settings.enabled = false →
        applySettings y = docUpdate y revealAllDoc := by
      intro y hy
      unfold applySettings
      rw [if_pos hy]
    have h1 : applySettings st = docUpdate st revealAllDoc := hgen st hdis
    have h2 : applySettings (applySettings st)
        = docUpdate (applySettings st) revealAllDoc :=
      hgen (applySettings st) (by rw [applySettings_settings]; exact hdis)
    rw [h2, h1]
    apply contentState_eq
    · rfl
    · rfl
    · rfl
    · apply pageState_eq
      · exact revealAllDoc_idem st.page.doc
      · rfl
      · rfl
      · rfl

end HideDeployments
